import Mathlib

/-! # muduo reactor core: Channel, HttpRequest, Timestamp, MutexLock, Thread, InetAddress

A shallow embedding of `muduo/net/Channel.{h,cc}`, `muduo/base/Timestamp.{h,cc}`,
`muduo/net/http/HttpRequest.h`, `muduo/base/Mutex.h`, `muduo/base/Thread.{h,cc}`,
`muduo/base/CurrentThread.{h,cc}` and `muduo/net/InetAddress.{h,cc}`,
followed by theorems about event dispatch, the interest mask, the Channel lifecycle,
HTTP methods and headers, Timestamp order, arithmetic and text, the mutex holder,
`MCHECK`, the Thread lifecycle, the cached tid, the thread entry point, Timer sequence
numbers and the port of an InetAddress.

Conventions of the embedding

* A C `int` used as a bit mask (`events_`, `revents_`) is a `Nat` holding its
  32-bit two's complement pattern; `a & b`, `a | b` are `&&&`, `|||`, and `~a`
  is `complement32 a`.  A mask used as a condition (`if (x & m)`) is the test
  `x &&& m != 0`.
* The `POLL*` constants come from the Linux `<poll.h>`.
* `std::function` slots are `Option`s: `none` is the empty function object.
  A callback body acts on an environment `σ` that is external to the Channel
  and returns normally; every invocation is also recorded in a trace.
* A failed `assert` is the outcome `aborted`, carrying the state at the abort.
* An `int64_t` or `pid_t` is an `Int`. The `int64_t` operations of `fromUnixTime`,
  `timeDifference` and `addTime` are reduced to 64 bits (two's complement), and a
  `double` whose integer part is outside `int64_t` converts to `INT64_MIN`, as on
  x86-64; other arithmetic that would leave the range of the C type is outside the
  model.
* A `double` is a finite binary64 number with correctly rounded arithmetic.
* A `string` is a `String`, one `Char` per byte.
* Results of system calls (`pthread_create`, `pthread_join`, the tid of a thread) are
  parameters of the operation that makes the call.
* A C++ exception leaving a function is a value of `Thrown`; `abort()` and a rethrow
  are outcomes of the function (`Exit`).
* The byte order of the host is a parameter of the conversions between host and
  network order.
* The operations of a Channel are calls made on the thread of its loop, as the spec
  requires of them; `removeFrom` and the destructor take the calling thread as a
  parameter. The index of a Channel is written by the back-end of its loop.
-/

namespace muduo

/-! ## Timestamp (muduo/base/Timestamp.h) -/

/-- Time stamp in UTC: `int64_t microSecondsSinceEpoch_`. -/
structure Timestamp where
  microSecondsSinceEpoch_ : Int
deriving DecidableEq, Repr

/-! ### The type `double`

A finite IEEE 754 binary64 number is kept as a pair `mant * 2 ^ expo`. Arithmetic is
the exact result rounded to the nearest representable number, ties to even, with a
53-bit significand and the subnormal range below `2 ^ -1022`; overflow to infinity
and NaN are outside the model. -/

/-- A finite `double`: the number `mant * 2 ^ expo`. -/
structure Double where
  mant : Int
  expo : Int
deriving Repr

/-- Quotient `n / d` rounded to the nearest natural number, ties to even. -/
def divRoundEven (n d : Nat) : Nat :=
  let f := n / d
  let r := n % d
  if 2 * r < d then f
  else if d < 2 * r then f + 1
  else if f % 2 = 0 then f else f + 1

/-- Helper of `floorLog2`: at most `fuel` halvings. -/
def log2Fuel : Nat → Nat → Nat
  | 0, _ => 0
  | fuel + 1, n => if n < 2 then 0 else log2Fuel fuel (n / 2) + 1

/-- For `n > 0`, the exponent `e` with `2 ^ e ≤ n < 2 ^ (e + 1)`. -/
def floorLog2 (n : Nat) : Nat := log2Fuel n n

/-- For `p, q > 0`, the exponent `e` with `2 ^ e ≤ p / q < 2 ^ (e + 1)`. -/
def fracLog2 (p q : Nat) : Int :=
  let e0 : Int := (floorLog2 p : Int) - (floorLog2 q : Int)
  if (if 0 ≤ e0 then q * 2 ^ e0.toNat ≤ p else q ≤ p * 2 ^ (-e0).toNat) then e0 else e0 - 1

namespace Double

/-- The `double` nearest to the fraction `p / q` (negated when `neg`), `q > 0`. -/
def roundFrac (neg : Bool) (p q : Nat) : Double :=
  if p = 0 then ⟨0, 0⟩
  else
    let s := max (fracLog2 p q) (-1022) - 52
    let m := if 0 ≤ s then divRoundEven p (q * 2 ^ s.toNat)
             else divRoundEven (p * 2 ^ (-s).toNat) q
    ⟨if neg then -(m : Int) else m, s⟩

/-- Conversion `static_cast<double>(n)` of an integer. -/
def ofInt (n : Int) : Double := roundFrac (decide (n < 0)) n.natAbs 1

/-- The operator `/` on `double`, for a non-zero divisor. -/
def div (a b : Double) : Double :=
  let s := a.expo - b.expo
  roundFrac (decide (a.mant < 0) != decide (b.mant < 0))
    (a.mant.natAbs * 2 ^ s.toNat) (b.mant.natAbs * 2 ^ (-s).toNat)

/-- The operator `*` on `double`. -/
def mul (a b : Double) : Double :=
  let s := a.expo + b.expo
  roundFrac (decide (a.mant < 0) != decide (b.mant < 0))
    (a.mant.natAbs * b.mant.natAbs * 2 ^ s.toNat) (2 ^ (-s).toNat)

/-- The operator `<` on `double`. -/
def lt (a b : Double) : Bool :=
  let e := min a.expo b.expo
  decide (a.mant * 2 ^ (a.expo - e).toNat < b.mant * 2 ^ (b.expo - e).toNat)

/-- The integer part of a `double`: the fraction is discarded (toward zero). -/
def truncate (d : Double) : Int :=
  let n : Nat := if 0 ≤ d.expo then d.mant.natAbs * 2 ^ d.expo.toNat
                 else d.mant.natAbs / 2 ^ (-d.expo).toNat
  if d.mant < 0 then -(n : Int) else n

/-- Conversion `static_cast<int64_t>(d)`: the integer part of `d` when it is an
`int64_t`. C++ leaves the conversion of any other value undefined; the result here is
the one of the x86-64 conversion instruction (`cvttsd2si`), `INT64_MIN`. -/
def toInt64 (d : Double) : Int :=
  let v : Int := truncate d
  if -2 ^ 63 ≤ v ∧ v < 2 ^ 63 then v else -2 ^ 63

/-- The rational number a `double` stands for. -/
def toRat (d : Double) : ℚ := d.mant * 2 ^ d.expo

end Double

/-! ### Integers of fixed width and `printf` conversions -/

/-- The value an `int64_t` holds after a result `x` is reduced to 64 bits (two's
complement). -/
def wrapInt64 (x : Int) : Int := (x + 2 ^ 63) % 2 ^ 64 - 2 ^ 63

/-- The text `s` preceded by as many copies of `c` as it takes to reach `width`. -/
def padLeft (c : Char) (width : Nat) (s : String) : String :=
  ⟨List.replicate (width - s.length) c ++ s.data⟩

/-- The `printf` conversion `%d` (also `%ld`, `PRId64`): the decimal digits, with a
leading `-` for a negative number. -/
def printfD (n : Int) : String := toString n

/-- The `printf` conversion `%5d`: `%d` padded with spaces on the left to width 5. -/
def printfD5 (n : Int) : String := padLeft ' ' 5 (printfD n)

/-- The `printf` conversion `%06d` (also `%06ld`): the decimal digits padded with
zeros to width 6, the sign of a negative number counting for the width. -/
def printfD06 (n : Int) : String :=
  if n < 0 then "-" ++ padLeft '0' 5 (toString n.natAbs)
  else padLeft '0' 6 (toString n.natAbs)

/-- What `snprintf(buf, size, ...)` leaves in `buf` for the formatted text `s`: at
most `size - 1` characters. -/
def snprintfBuf (size : Nat) (s : String) : String := ⟨s.data.take (size - 1)⟩

namespace Timestamp

/-- `Timestamp::Timestamp()`: "Constucts an invalid Timestamp". -/
def new : Timestamp := ⟨0⟩

/-- `explicit Timestamp::Timestamp(int64_t microSecondsSinceEpochArg)`. -/
def ofMicroSeconds (microSecondsSinceEpochArg : Int) : Timestamp :=
  ⟨microSecondsSinceEpochArg⟩

def valid (t : Timestamp) : Bool := decide (t.microSecondsSinceEpoch_ > 0)

def microSecondsSinceEpoch (t : Timestamp) : Int := t.microSecondsSinceEpoch_

/-- `Timestamp::invalid()`. -/
def invalid : Timestamp := Timestamp.new

def kMicroSecondsPerSecond : Int := 1000 * 1000

/-- `operator<(Timestamp lhs, Timestamp rhs)`. -/
def lt (lhs rhs : Timestamp) : Bool :=
  decide (lhs.microSecondsSinceEpoch < rhs.microSecondsSinceEpoch)

/-- `operator==(Timestamp lhs, Timestamp rhs)`. -/
def eq (lhs rhs : Timestamp) : Bool :=
  lhs.microSecondsSinceEpoch == rhs.microSecondsSinceEpoch

/-- `Timestamp::secondsSinceEpoch`; `/` on integers discards the fraction. -/
def secondsSinceEpoch (t : Timestamp) : Int :=
  Int.tdiv t.microSecondsSinceEpoch_ kMicroSecondsPerSecond

/-- `Timestamp::fromUnixTime(time_t t, int microseconds)`; the product and the sum are
`int64_t` operations. -/
def fromUnixTime (t : Int) (microseconds : Int) : Timestamp :=
  ofMicroSeconds (wrapInt64 (wrapInt64 (t * kMicroSecondsPerSecond) + microseconds))

/-- `Timestamp::toString`: `snprintf(buf, sizeof(buf), "%ld.%06ld", seconds,
microseconds)` into a buffer of 32 characters. -/
def toString (t : Timestamp) : String :=
  let seconds : Int := Int.tdiv t.microSecondsSinceEpoch_ kMicroSecondsPerSecond
  let microseconds : Int := Int.tmod t.microSecondsSinceEpoch_ kMicroSecondsPerSecond
  snprintfBuf 32 (printfD seconds ++ "." ++ printfD06 microseconds)

end Timestamp

/-- `addTime(Timestamp timestamp, double seconds)`; the product is a `double`
operation, `delta` its conversion to `int64_t`, and the sum an `int64_t` operation. -/
def addTime (timestamp : Timestamp) (seconds : Double) : Timestamp :=
  let delta : Int :=
    Double.toInt64 (Double.mul seconds (Double.ofInt Timestamp.kMicroSecondsPerSecond))
  Timestamp.ofMicroSeconds (wrapInt64 (timestamp.microSecondsSinceEpoch + delta))

namespace net

/-! ## poll(2) event bits, from the Linux `<poll.h>` -/

def POLLIN : Nat := 0x001
def POLLPRI : Nat := 0x002
def POLLOUT : Nat := 0x004
def POLLERR : Nat := 0x008
def POLLHUP : Nat := 0x010
def POLLNVAL : Nat := 0x020
def POLLRDHUP : Nat := 0x2000

/-- The C operator `~` on a 32-bit `int`, on bit patterns. -/
def complement32 (a : Nat) : Nat := 0xFFFFFFFF ^^^ (a % 2 ^ 32)

/-- The outcome of an operation that contains an `assert`: it either runs to
completion, or the process aborts in the state reached at the failed assertion. -/
inductive Outcome (α : Type) where
  | ok (s : α)
  | aborted (s : α)

/-! ## The owning EventLoop, as seen from one Channel -/

/-- A call forwarded by a Channel to its owning loop. -/
inductive LoopCall where
  | updateChannel (interest : Nat)
  | removeChannel
deriving DecidableEq, Repr

/-- Modelled from the spec: the Demultiplexer back-end of a loop, as far as the index of
one Channel goes. "The Channel's index is managed entirely by the back-end":
`afterUpdate` is the index the back-end leaves in a Channel passed to `updateChannel`,
given whether the Channel was registered, its interest mask and its index, and
`afterRemove` the index it leaves in a Channel passed to `removeChannel`. -/
structure Demultiplexer where
  afterUpdate : Bool → Nat → Int → Int
  afterRemove : Int → Int

namespace Demultiplexer

/-- Modelled from the spec: the three states that the index encodes "for the epoll
back-end": never-added, added-and-enabled, added-but-disabled. Never-added is -1, the
index of a fresh Channel (Channel.cc); the spec gives no values for the other two,
which are 1 and 2 here. -/
def kNew : Int := -1
def kAdded : Int := 1
def kDeleted : Int := 2

/-- Modelled from the spec: the epoll-style back-end. A Channel that `updateChannel`
deregisters because its new interest is zero is added-but-disabled, any other updated
Channel is added-and-enabled, and a removed Channel is never-added. -/
def epoll : Demultiplexer :=
  { afterUpdate := fun registered interest _ =>
      if registered && interest == 0 then kDeleted else kAdded,
    afterRemove := fun _ => kNew }

end Demultiplexer

/-- Modelled from the spec: the owning `EventLoop` (EventLoop.h/.cc and the pollers are
not part of the sources), restricted to what it knows about one Channel: whether the
Channel is registered, the interest last pushed, the calls it has received, and its
back-end. -/
structure EventLoop where
  registered : Bool
  interest : Nat
  calls : List LoopCall
  demultiplexer : Demultiplexer

namespace EventLoop

/-- Modelled from the spec: `updateChannel(Channel*)` of the absent
EventLoop/Demultiplexer, "register the Channel if new, otherwise modify its interest;
if new interest is zero and it was registered, deregister it". Of the Channel passed,
the loop reads the interest mask and reads and writes the index; the result is the
loop and the index left in the Channel. The call is made on the loop's thread. -/
def updateChannel (l : EventLoop) (interest : Nat) (index : Int) : EventLoop × Int :=
  (if l.registered then
      { l with registered := interest != 0, interest := interest,
               calls := l.calls ++ [LoopCall.updateChannel interest] }
    else
      { l with registered := true, interest := interest,
               calls := l.calls ++ [LoopCall.updateChannel interest] },
    l.demultiplexer.afterUpdate l.registered interest index)

/-- Modelled from the spec: `removeChannel(Channel*)` of the absent
EventLoop/Demultiplexer, "unconditional deregistration. Precondition: no active events
outstanding", with the loop's "preconditions: Channel's owning loop is `this`, caller
is on-thread", whose violation is fatal. The receiver is the loop the Channel points
to; `inLoopThread` says whether the caller is on the loop's thread and `activeEvents`
whether active events of the Channel are outstanding. Of the Channel passed, the loop
reads and writes the index; the result is the loop and the index left in the
Channel. -/
def removeChannel (l : EventLoop) (inLoopThread activeEvents : Bool) (index : Int) :
    Outcome (EventLoop × Int) :=
  let l := { l with calls := l.calls ++ [LoopCall.removeChannel] }
  if !inLoopThread then Outcome.aborted (l, index)
  else if activeEvents then Outcome.aborted (l, index)
  else Outcome.ok ({ l with registered := false }, l.demultiplexer.afterRemove index)

/-- Modelled from the spec: `hasChannel` of the absent EventLoop/Demultiplexer,
"membership query, used for assertions". -/
def hasChannel (l : EventLoop) : Bool := l.registered

end EventLoop

/-! ## Channel (muduo/net/Channel.h, Channel.cc) -/

/-- The argument of `tie`: a `std::shared_ptr<void>`, null or owning an anchor. -/
inductive SharedPtr where
  | null
  | owning
deriving DecidableEq, Repr

/-- A `std::weak_ptr<void>`: empty, or observing an anchor that is still alive, or
observing an anchor that has been destroyed. -/
inductive WeakPtr where
  | empty
  | alive
  | expired
deriving DecidableEq, Repr

/-- `weak_ptr::lock()`, as the truth value of the resulting `shared_ptr`. -/
def WeakPtr.lock : WeakPtr → Bool
  | WeakPtr.alive => true
  | _ => false

/-- Assignment of a `shared_ptr` to a `weak_ptr`. -/
def WeakPtr.ofShared : SharedPtr → WeakPtr
  | SharedPtr.owning => WeakPtr.alive
  | SharedPtr.null => WeakPtr.empty

/-- The last owner of the observed anchor lets go of it. -/
def WeakPtr.anchorDestroyed : WeakPtr → WeakPtr
  | WeakPtr.alive => WeakPtr.expired
  | p => p

/-- `typedef std::function<void()> EventCallback`. -/
abbrev EventCallback (σ : Type) := Option (σ → σ)

/-- `typedef std::function<void(Timestamp)> ReadEventCallback`. -/
abbrev ReadEventCallback (σ : Type) := Option (Timestamp → σ → σ)

/-- The data members of `class Channel`. -/
structure Channel (σ : Type) where
  loop_ : EventLoop
  fd_ : Int
  events_ : Nat
  revents_ : Nat
  index_ : Int
  logHup_ : Bool
  tie_ : WeakPtr
  tied_ : Bool
  eventHandling_ : Bool
  addedToLoop_ : Bool
  readCallback_ : ReadEventCallback σ
  writeCallback_ : EventCallback σ
  closeCallback_ : EventCallback σ
  errorCallback_ : EventCallback σ

/-- The four callback slots. -/
inductive Slot where
  | read
  | write
  | close
  | error
deriving DecidableEq, Repr

/-- One callback invocation: the slot, the argument passed (only the read callback
takes one) and the value of `eventHandling_` when the callback was entered. -/
structure Invocation where
  slot : Slot
  arg : Option Timestamp
  handling : Bool
deriving DecidableEq, Repr

/-- Severity of a log line. -/
inductive LogLevel where
  | trace
  | warn
deriving DecidableEq, Repr

/-- What is outside the Channel: the environment the callbacks act on, the trace of
callback invocations, and the lines handed to the logger. -/
structure World (σ : Type) where
  env : σ
  calls : List Invocation
  log : List (LogLevel × String)

namespace Channel

variable {σ : Type}

def kNoneEvent : Nat := 0
def kReadEvent : Nat := POLLIN ||| POLLPRI
def kWriteEvent : Nat := POLLOUT

/-- `Channel::Channel(EventLoop *loop, int fd__)`. -/
def new (loop : EventLoop) (fd__ : Int) : Channel σ :=
  { loop_ := loop, fd_ := fd__, events_ := 0, revents_ := 0, index_ := -1,
    logHup_ := true, tie_ := WeakPtr.empty, tied_ := false,
    eventHandling_ := false, addedToLoop_ := false,
    readCallback_ := none, writeCallback_ := none,
    closeCallback_ := none, errorCallback_ := none }

/-- `Channel::~Channel()`: whether the three assertions pass. `inLoopThread` is
the value of `loop_->isInLoopThread()` on the destroying thread. -/
def destructorOk (c : Channel σ) (inLoopThread : Bool) : Bool :=
  if c.eventHandling_ then false
  else if c.addedToLoop_ then false
  else if inLoopThread then !c.loop_.hasChannel
  else true

def setReadCallback (c : Channel σ) (cb : ReadEventCallback σ) : Channel σ :=
  { c with readCallback_ := cb }

def setWriteCallback (c : Channel σ) (cb : EventCallback σ) : Channel σ :=
  { c with writeCallback_ := cb }

def setCloseCallback (c : Channel σ) (cb : EventCallback σ) : Channel σ :=
  { c with closeCallback_ := cb }

def setErrorCallback (c : Channel σ) (cb : EventCallback σ) : Channel σ :=
  { c with errorCallback_ := cb }

/-- `Channel::tie`. -/
def tie (c : Channel σ) (obj : SharedPtr) : Channel σ :=
  { c with tie_ := WeakPtr.ofShared obj, tied_ := true }

/-- The anchor observed by `tie_` is destroyed by its owners (not a Channel method). -/
def anchorDestroyed (c : Channel σ) : Channel σ :=
  { c with tie_ := c.tie_.anchorDestroyed }

def fd (c : Channel σ) : Int := c.fd_
def events (c : Channel σ) : Nat := c.events_
def set_revents (c : Channel σ) (revt : Nat) : Channel σ := { c with revents_ := revt }
def isNoneEvent (c : Channel σ) : Bool := c.events_ == kNoneEvent

/-- `Channel::update`: `addedToLoop_ = true; loop_->updateChannel(this);`. -/
def update (c : Channel σ) : Channel σ :=
  let c := { c with addedToLoop_ := true }
  let r := c.loop_.updateChannel c.events_ c.index_
  { c with loop_ := r.1, index_ := r.2 }

def enableReading (c : Channel σ) : Channel σ :=
  update { c with events_ := c.events_ ||| kReadEvent }

def disableReading (c : Channel σ) : Channel σ :=
  update { c with events_ := c.events_ &&& complement32 kReadEvent }

def enableWriting (c : Channel σ) : Channel σ :=
  update { c with events_ := c.events_ ||| kWriteEvent }

def disableWriting (c : Channel σ) : Channel σ :=
  update { c with events_ := c.events_ &&& complement32 kWriteEvent }

def disableAll (c : Channel σ) : Channel σ :=
  update { c with events_ := kNoneEvent }

def isWriting (c : Channel σ) : Bool := c.events_ &&& kWriteEvent != 0
def isReading (c : Channel σ) : Bool := c.events_ &&& kReadEvent != 0

def index (c : Channel σ) : Int := c.index_
def set_index (c : Channel σ) (idx : Int) : Channel σ := { c with index_ := idx }
def doNotLogHup (c : Channel σ) : Channel σ := { c with logHup_ := false }
def ownerLoop (c : Channel σ) : EventLoop := c.loop_

/-- `Channel::remove`: `assert(isNoneEvent()); addedToLoop_ = false;
loop_->removeChannel(this);`, called from a thread for which `loop_->isInLoopThread()`
is `inLoopThread`, with or without active events of the Channel outstanding. -/
def removeFrom (c : Channel σ) (inLoopThread activeEvents : Bool) : Outcome (Channel σ) :=
  if c.isNoneEvent then
    let c := { c with addedToLoop_ := false }
    match c.loop_.removeChannel inLoopThread activeEvents c.index_ with
    | Outcome.ok r => Outcome.ok { c with loop_ := r.1, index_ := r.2 }
    | Outcome.aborted r => Outcome.aborted { c with loop_ := r.1, index_ := r.2 }
  else
    Outcome.aborted c

/-- `Channel::remove` where the preconditions of the loop's `removeChannel` hold: called
on the loop's thread, with no active events outstanding. -/
def remove (c : Channel σ) : Outcome (Channel σ) := c.removeFrom true false

/-- `Channel::eventsToString(int fd, int ev)`. -/
def eventsToStringOf (fd : Int) (ev : Nat) : String :=
  let oss := toString fd ++ ": "
  let oss := if ev &&& POLLIN != 0 then oss ++ "IN " else oss
  let oss := if ev &&& POLLPRI != 0 then oss ++ "PRI " else oss
  let oss := if ev &&& POLLOUT != 0 then oss ++ "OUT " else oss
  let oss := if ev &&& POLLHUP != 0 then oss ++ "HUP " else oss
  let oss := if ev &&& POLLRDHUP != 0 then oss ++ "RDHUP " else oss
  let oss := if ev &&& POLLERR != 0 then oss ++ "ERR " else oss
  let oss := if ev &&& POLLNVAL != 0 then oss ++ "NVAL " else oss
  oss

def reventsToString (c : Channel σ) : String := eventsToStringOf c.fd_ c.revents_
def eventsToString (c : Channel σ) : String := eventsToStringOf c.fd_ c.events_

/-- A line handed to the logger (`LOG_TRACE << ...`, `LOG_WARN << ...`). -/
def logLine (w : World σ) (lvl : LogLevel) (msg : String) : World σ :=
  { w with log := w.log ++ [(lvl, msg)] }

/-- The statement `if (cb) cb();` for an `EventCallback` slot of Channel `c`. -/
def callEvent (c : Channel σ) (slot : Slot) (cb : EventCallback σ) (w : World σ) : World σ :=
  match cb with
  | some f => { w with env := f w.env,
                       calls := w.calls ++ [{ slot := slot, arg := none,
                                               handling := c.eventHandling_ }] }
  | none => w

/-- The statement `if (readCallback_) readCallback_(receiveTime);`. -/
def callRead (c : Channel σ) (receiveTime : Timestamp) (w : World σ) : World σ :=
  match c.readCallback_ with
  | some f => { w with env := f receiveTime w.env,
                       calls := w.calls ++ [{ slot := Slot.read, arg := some receiveTime,
                                               handling := c.eventHandling_ }] }
  | none => w

/-- `Channel::handleEventWithGuard`. -/
def handleEventWithGuard (c : Channel σ) (receiveTime : Timestamp) (w : World σ) :
    Channel σ × World σ :=
  let c := { c with eventHandling_ := true }
  let w := logLine w LogLevel.trace c.reventsToString
  let w :=
    if (c.revents_ &&& POLLHUP != 0) && !(c.revents_ &&& POLLIN != 0) then
      let w :=
        if c.logHup_ then
          logLine w LogLevel.warn
            ("fd = " ++ toString c.fd_ ++ " Channel::handle_event() POLLHUP")
        else w
      callEvent c Slot.close c.closeCallback_ w
    else w
  let w :=
    if c.revents_ &&& POLLNVAL != 0 then
      logLine w LogLevel.warn
        ("fd = " ++ toString c.fd_ ++ " Channel::handle_event() POLLNVAL")
    else w
  let w :=
    if c.revents_ &&& (POLLERR ||| POLLNVAL) != 0 then
      callEvent c Slot.error c.errorCallback_ w
    else w
  let w :=
    if c.revents_ &&& (POLLIN ||| POLLPRI ||| POLLRDHUP) != 0 then
      callRead c receiveTime w
    else w
  let w :=
    if c.revents_ &&& POLLOUT != 0 then
      callEvent c Slot.write c.writeCallback_ w
    else w
  ({ c with eventHandling_ := false }, w)

/-- `Channel::handleEvent`. -/
def handleEvent (c : Channel σ) (receiveTime : Timestamp) (w : World σ) :
    Channel σ × World σ :=
  if c.tied_ then
    let guard := c.tie_.lock
    if guard then handleEventWithGuard c receiveTime w
    else (c, w)
  else
    handleEventWithGuard c receiveTime w

/-- The public mutators of a Channel other than `remove` and `handleEvent`. -/
inductive Op (σ : Type) where
  | enableReading
  | disableReading
  | enableWriting
  | disableWriting
  | disableAll
  | tie (obj : SharedPtr)
  | set_revents (revt : Nat)
  | set_index (idx : Int)
  | setReadCallback (cb : ReadEventCallback σ)
  | setWriteCallback (cb : EventCallback σ)
  | setCloseCallback (cb : EventCallback σ)
  | setErrorCallback (cb : EventCallback σ)
  | doNotLogHup

/-- The five operations that change the interest mask and call `update()`. -/
def Op.isInterestOp : Op σ → Bool
  | Op.enableReading => true
  | Op.disableReading => true
  | Op.enableWriting => true
  | Op.disableWriting => true
  | Op.disableAll => true
  | _ => false

/-- One call of a public mutator. -/
def Op.apply (op : Op σ) (c : Channel σ) : Channel σ :=
  match op with
  | Op.enableReading => c.enableReading
  | Op.disableReading => c.disableReading
  | Op.enableWriting => c.enableWriting
  | Op.disableWriting => c.disableWriting
  | Op.disableAll => c.disableAll
  | Op.tie obj => c.tie obj
  | Op.set_revents revt => c.set_revents revt
  | Op.set_index idx => c.set_index idx
  | Op.setReadCallback cb => c.setReadCallback cb
  | Op.setWriteCallback cb => c.setWriteCallback cb
  | Op.setCloseCallback cb => c.setCloseCallback cb
  | Op.setErrorCallback cb => c.setErrorCallback cb
  | Op.doNotLogHup => c.doNotLogHup

/-- A finite sequence of calls, first call first. -/
def run (ops : List (Op σ)) (c : Channel σ) : Channel σ :=
  ops.foldl (fun c op => op.apply c) c

end Channel

/-! ## HttpRequest (muduo/net/http/HttpRequest.h) -/

inductive Method where
  | kInvalid
  | kGet
  | kPost
  | kHead
  | kPut
  | kDelete
deriving DecidableEq, Repr

inductive Version where
  | kUnknown
  | kHttp10
  | kHttp11
deriving DecidableEq, Repr

/-- The data members of `class HttpRequest`; a `string` is a `String`, and the
`std::map<string, string>` is the list of its entries. -/
structure HttpRequest where
  method_ : Method
  version_ : Version
  path_ : String
  query_ : String
  receiveTime_ : Timestamp
  headers_ : List (String × String)
deriving DecidableEq, Repr

namespace HttpRequest

/-- `HttpRequest::HttpRequest()`. -/
def new : HttpRequest :=
  { method_ := Method.kInvalid, version_ := Version.kUnknown, path_ := "", query_ := "",
    receiveTime_ := ⟨0⟩, headers_ := [] }

def setVersion (r : HttpRequest) (v : Version) : HttpRequest := { r with version_ := v }
def getVersion (r : HttpRequest) : Version := r.version_

/-- `HttpRequest::setMethod(start, end)`; `m` is the string `[start, end)`. The
result is the returned `bool` and the request afterwards. -/
def setMethod (r : HttpRequest) (m : String) : Outcome (Bool × HttpRequest) :=
  if r.method_ == Method.kInvalid then
    let method_ :=
      if m == "GET" then Method.kGet
      else if m == "POST" then Method.kPost
      else if m == "HEAD" then Method.kHead
      else if m == "PUT" then Method.kPut
      else if m == "DELETE" then Method.kDelete
      else Method.kInvalid
    Outcome.ok (method_ != Method.kInvalid, { r with method_ := method_ })
  else
    Outcome.aborted (false, r)

def method (r : HttpRequest) : Method := r.method_

/-- `HttpRequest::methodString`. -/
def methodString (r : HttpRequest) : String :=
  match r.method_ with
  | Method.kGet => "GET"
  | Method.kPost => "POST"
  | Method.kHead => "HEAD"
  | Method.kPut => "PUT"
  | Method.kDelete => "DELETE"
  | _ => "UNKNOWN"

def setPath (r : HttpRequest) (p : String) : HttpRequest := { r with path_ := p }
def path (r : HttpRequest) : String := r.path_
def setQuery (r : HttpRequest) (q : String) : HttpRequest := { r with query_ := q }
def query (r : HttpRequest) : String := r.query_
def setReceiveTime (r : HttpRequest) (t : Timestamp) : HttpRequest := { r with receiveTime_ := t }
def receiveTime (r : HttpRequest) : Timestamp := r.receiveTime_
def headers (r : HttpRequest) : List (String × String) := r.headers_

/-- The function `isspace` of `<ctype.h>` in the "C" locale: space and the five
control characters `\t \n \v \f \r`. -/
def isspace (c : Char) : Bool := c.toNat == 32 || (9 ≤ c.toNat && c.toNat ≤ 13)

/-- The statement `headers_[field] = value` on a `std::map<string, string>`, kept as
its entries in key order: the entry with an equivalent key gets the value, otherwise
a new entry is inserted at its place in the order. -/
def mapAssign (field value : String) : List (String × String) → List (String × String)
  | [] => [(field, value)]
  | (k, v) :: rest =>
    if field < k then (field, value) :: (k, v) :: rest
    else if k < field then (k, v) :: mapAssign field value rest
    else (k, value) :: rest

/-- The call `headers_.find(field)`, as the mapped value when an entry is found. -/
def mapFind (field : String) : List (String × String) → Option String
  | [] => none
  | (k, v) :: rest => if k == field then some v else mapFind field rest

/-- The value stored by `addHeader` for the text `rest` that follows the colon: the
first loop skips leading whitespace, the second one removes trailing whitespace. -/
def trimValue (rest : String) : String :=
  ⟨(rest.data.dropWhile isspace).rdropWhile isspace⟩

/-- `HttpRequest::addHeader(start, colon, end)`: `field` is the text `[start, colon)`
and `rest` the text after the colon, up to `end`. -/
def addHeader (r : HttpRequest) (field rest : String) : HttpRequest :=
  { r with headers_ := mapAssign field (trimValue rest) r.headers_ }

/-- `HttpRequest::getHeader`. -/
def getHeader (r : HttpRequest) (field : String) : String :=
  match mapFind field r.headers_ with
  | some v => v
  | none => ""

end HttpRequest

end net

/-! ## MCHECK, MutexLock (muduo/base/Mutex.h) -/

/-- An `int`-valued C expression with side effects on a state `σ`: evaluating it once
in state `s` yields its value and the state afterwards. -/
abbrev IntExpr (σ : Type) := σ → Int × σ

/-- `MCHECK(ret)` as defined under `CHECK_PTHREAD_RETURN_VALUE`:
`errnum = (ret); if (errnum != 0) __assert_perror_fail(...)`. -/
def MCHECK_perror {σ : Type} (ret : IntExpr σ) (s : σ) : net.Outcome σ :=
  let r := ret s
  let errnum := r.1
  if errnum != 0 then net.Outcome.aborted r.2 else net.Outcome.ok r.2

/-- `MCHECK(ret)` as defined without `CHECK_PTHREAD_RETURN_VALUE`:
`errnum = (ret); assert(errnum == 0); (void) errnum;`. -/
def MCHECK_assert {σ : Type} (ret : IntExpr σ) (s : σ) : net.Outcome σ :=
  let r := ret s
  let errnum := r.1
  if errnum == 0 then net.Outcome.ok r.2 else net.Outcome.aborted r.2

/-- The data members of `class MutexLock`: `mutex_` is the state of the
`pthread_mutex_t` (locked or not), `holder_` the tid of the holder. -/
structure MutexLock where
  mutex_ : Bool
  holder_ : Int
deriving DecidableEq, Repr

namespace MutexLock

/-- `MutexLock::MutexLock()`. -/
def new : MutexLock := { mutex_ := false, holder_ := 0 }

/-- `MutexLock::isLockedByThisThread`, called on the thread whose
`CurrentThread::tid()` is `tid`. -/
def isLockedByThisThread (m : MutexLock) (tid : Int) : Bool := m.holder_ == tid

def unassignHolder (m : MutexLock) : MutexLock := { m with holder_ := 0 }

def assignHolder (m : MutexLock) (tid : Int) : MutexLock := { m with holder_ := tid }

/-- `MutexLock::lock`, called on thread `tid`. `pthread_mutex_lock` returns 0 with the
mutex locked; on a mutex that is already locked the caller blocks, which is `none`. -/
def lock (m : MutexLock) (tid : Int) : Option MutexLock :=
  if m.mutex_ then none
  else some (assignHolder { m with mutex_ := true } tid)

/-- `MutexLock::unlock`; `pthread_mutex_unlock` returns 0 with the mutex unlocked. -/
def unlock (m : MutexLock) : MutexLock :=
  { unassignHolder m with mutex_ := false }

/-- `MutexLock::~MutexLock()`: whether `assert(holder_ == 0)` passes. -/
def destructorOk (m : MutexLock) : Bool := m.holder_ == 0

end MutexLock

namespace MutexLockGuard

/-- `MutexLockGuard::MutexLockGuard(MutexLock& mutex)`, on thread `tid`. -/
def new (mutex : MutexLock) (tid : Int) : Option MutexLock := mutex.lock tid

/-- `MutexLockGuard::~MutexLockGuard()`. -/
def destroy (mutex : MutexLock) : MutexLock := mutex.unlock

end MutexLockGuard

/-- The expression `ret` instrumented with a counter of its evaluations. -/
def counted {σ : Type} (ret : IntExpr σ) : IntExpr (σ × Nat) :=
  fun s => ((ret s.1).1, ((ret s.1).2, s.2 + 1))

/-! ## Thread (muduo/base/Thread.h, Thread.cc) -/

/-- The data members of `class Thread`; `φ` is the type of thread functions and
`latch_` the count of the `CountDownLatch`. -/
structure Thread (φ : Type) where
  started_ : Bool
  joined_ : Bool
  pthreadId_ : Nat
  tid_ : Int
  func_ : φ
  name_ : String
  latch_ : Nat

namespace Thread

variable {φ : Type}

/-- `Thread::setDefaultName`; `numCreated` is the static counter `numCreated_` before
the call, the result carries the counter afterwards. -/
def setDefaultName (t : Thread φ) (numCreated : Int) : Thread φ × Int :=
  let num := numCreated + 1
  if t.name_.isEmpty then ({ t with name_ := "Thread" ++ toString num }, num)
  else (t, num)

/-- `Thread::Thread(ThreadFunc func, const string& n)`. -/
def new (func : φ) (n : String) (numCreated : Int) : Thread φ × Int :=
  setDefaultName
    { started_ := false, joined_ := false, pthreadId_ := 0, tid_ := 0, func_ := func,
      name_ := n, latch_ := 1 } numCreated

/-- `Thread::start`. `created` is what `pthread_create` does: `none` when it fails
(non-zero return), otherwise the id of the new thread together with the tid that the
new thread stores into `tid_` before it counts the latch down. `LOG_SYSFATAL` aborts. -/
def start (t : Thread φ) (created : Option (Nat × Int)) : net.Outcome (Thread φ) :=
  if t.started_ then net.Outcome.aborted t
  else
    let t := { t with started_ := true }
    match created with
    | none => net.Outcome.aborted { t with started_ := false }
    | some (pthreadId, tid) =>
      let t := { t with pthreadId_ := pthreadId, tid_ := tid, latch_ := 0 }
      if tid > 0 then net.Outcome.ok t else net.Outcome.aborted t

/-- `Thread::join`; `joinResult` is the value returned by `pthread_join`. The result
is the returned `int` and the Thread afterwards. -/
def join (t : Thread φ) (joinResult : Int) : net.Outcome (Int × Thread φ) :=
  if !t.started_ then net.Outcome.aborted (0, t)
  else if t.joined_ then net.Outcome.aborted (0, t)
  else net.Outcome.ok (joinResult, { t with joined_ := true })

def started (t : Thread φ) : Bool := t.started_
def tid (t : Thread φ) : Int := t.tid_
def name (t : Thread φ) : String := t.name_

/-- The Thread objects that can arise: constructed, then changed by calls of `start`
and `join` that return. -/
inductive Reachable : Thread φ → Prop where
  | constructed (func : φ) (n : String) (numCreated : Int) :
      Reachable (Thread.new func n numCreated).1
  | started (t t' : Thread φ) (created : Option (Nat × Int)) :
      Reachable t → t.start created = net.Outcome.ok t' → Reachable t'
  | joined (t t' : Thread φ) (joinResult ret : Int) :
      Reachable t → t.join joinResult = net.Outcome.ok (ret, t') → Reachable t'

end Thread

/-! ## CurrentThread (muduo/base/CurrentThread.h, CurrentThread.cc, Thread.cc) -/

/-- The kernel's side of one thread: its thread id, and the number of `gettid` system
calls the thread has made so far. -/
structure Kernel where
  tid : Int
  gettidCalls : Nat
deriving DecidableEq, Repr

/-- The thread-local variables of namespace `CurrentThread`. -/
structure CurrentThread where
  t_cachedTid : Int
  t_tidString : String
  t_tidStringLength : Int
  t_threadName : String
deriving DecidableEq, Repr

namespace CurrentThread

/-- The initial values of the thread-local variables (CurrentThread.cc). -/
def initial : CurrentThread :=
  { t_cachedTid := 0, t_tidString := "", t_tidStringLength := 6, t_threadName := "unknown" }

/-- `detail::gettid`: the system call `SYS_gettid`. -/
def gettid (k : Kernel) : Int × Kernel :=
  (k.tid, { k with gettidCalls := k.gettidCalls + 1 })

/-- `CurrentThread::cacheTid`. -/
def cacheTid (s : CurrentThread) (k : Kernel) : CurrentThread × Kernel :=
  if s.t_cachedTid == 0 then
    let r := gettid k
    let text := printfD5 r.1 ++ " "
    ({ s with t_cachedTid := r.1, t_tidString := snprintfBuf 32 text,
              t_tidStringLength := text.length }, r.2)
  else (s, k)

/-- `CurrentThread::tid`: the returned value, and the state afterwards. -/
def tid (s : CurrentThread) (k : Kernel) : Int × CurrentThread × Kernel :=
  if s.t_cachedTid == 0 then
    let r := cacheTid s k
    (r.1.t_cachedTid, r.1, r.2)
  else (s.t_cachedTid, s, k)

def tidString (s : CurrentThread) : String := s.t_tidString
def tidStringLength (s : CurrentThread) : Int := s.t_tidStringLength
def name (s : CurrentThread) : String := s.t_threadName

/-- `detail::afterFork`, run in the child process, whose kernel side is `k`. -/
def afterFork (s : CurrentThread) (k : Kernel) : CurrentThread × Kernel :=
  let s := { s with t_cachedTid := 0, t_threadName := "main" }
  let r := tid s k
  (r.2.1, r.2.2)

end CurrentThread

/-! ## ThreadData (muduo/base/Thread.cc) -/

/-- What a thread function can throw: a `muduo::Exception` with its message and stack
trace, another `std::exception` with its message, or any other value. -/
inductive Thrown where
  | exception (what stackTrace : String)
  | stdException (what : String)
  | other
deriving DecidableEq, Repr

/-- `Thread::ThreadFunc`, a `std::function<void ()>`: a call acts on the environment
`σ` and either returns (`none`) or throws. -/
abbrev ThreadFunc (σ : Type) := σ → Option Thrown × σ

/-- The data members of `struct ThreadData`; `tid_` and `latch_` tell whether the
pointer is still non-null, what they point to is in the `ThreadWorld`. -/
structure ThreadData (σ : Type) where
  func_ : ThreadFunc σ
  name_ : String
  tid_ : Bool
  latch_ : Bool

/-- What `runInThread` acts on: the thread-local variables and the kernel side of the
new thread, the `Thread::tid_` and the count of the `CountDownLatch` that the pointers
refer to, the name set with `prctl(PR_SET_NAME)`, the lines written to `stderr`, and
the environment of the thread function. -/
structure ThreadWorld (σ : Type) where
  current : CurrentThread
  kernel : Kernel
  threadTid : Int
  latchCount : Nat
  prName : String
  stderr : List String
  env : σ

/-- How a call of `runInThread` ends: it returns, the process is aborted, or an
exception leaves the function. -/
inductive Exit where
  | returned
  | aborted
  | rethrown (t : Thrown)
deriving DecidableEq, Repr

namespace ThreadData

variable {σ : Type}

/-- `ThreadData::runInThread`. -/
def runInThread (d : ThreadData σ) (w : ThreadWorld σ) :
    Exit × ThreadData σ × ThreadWorld σ :=
  let r := CurrentThread.tid w.current w.kernel
  let w := { w with current := r.2.1, kernel := r.2.2, threadTid := r.1 }
  let d := { d with tid_ := false }
  let w := { w with latchCount := w.latchCount - 1 }
  let d := { d with latch_ := false }
  let w := { w with current :=
    { w.current with t_threadName := if d.name_.isEmpty then "muduoThread" else d.name_ } }
  let w := { w with prName := ⟨w.current.t_threadName.data.take 15⟩ }
  let called := d.func_ w.env
  let w := { w with env := called.2 }
  match called.1 with
  | none =>
    (Exit.returned, d, { w with current := { w.current with t_threadName := "finished" } })
  | some (Thrown.exception what stackTrace) =>
    (Exit.aborted, d,
      { w with current := { w.current with t_threadName := "crashed" },
               stderr := w.stderr ++ ["exception caught in Thread " ++ d.name_ ++ "\n",
                 "reason: " ++ what ++ "\n", "stack trace: " ++ stackTrace ++ "\n"] })
  | some (Thrown.stdException what) =>
    (Exit.aborted, d,
      { w with current := { w.current with t_threadName := "crashed" },
               stderr := w.stderr ++ ["exception caught in Thread " ++ d.name_ ++ "\n",
                 "reason: " ++ what ++ "\n"] })
  | some Thrown.other =>
    (Exit.rethrown Thrown.other, d,
      { w with current := { w.current with t_threadName := "crashed" },
               stderr := w.stderr ++
                 ["unknown exception caught in Thread " ++ d.name_ ++ "\n"] })

end ThreadData

/-- A sample world for a new thread with kernel tid 4243, before `runInThread`. -/
def sampleThreadWorld : ThreadWorld Unit :=
  { current := CurrentThread.initial, kernel := { tid := 4243, gettidCalls := 0 },
    threadTid := 0, latchCount := 1, prName := "", stderr := [], env := () }

/-- A sample `ThreadData` named "worker" whose function ends as `ending` says. -/
def sampleThreadData (ending : Option Thrown) : ThreadData Unit :=
  { func_ := fun e => (ending, e), name_ := "worker", tid_ := true, latch_ := true }

namespace net

/-! ## Timer -/

/-- Modelled from the spec: the class `Timer` (muduo/net/Timer.h is not part of the
sources; TimerTest.cc uses it), "Attributes: callback, absolute expiration, repeat
interval (0 ⇒ one-shot), monotonically allocated sequence id"; `φ` is the type of
callbacks. -/
structure Timer (φ : Type) where
  callback_ : φ
  expiration_ : Timestamp
  interval_ : Double
  repeat_ : Bool
  sequence_ : Int

namespace Timer

variable {φ : Type}

/-- Modelled from the spec: the constructor `Timer(cb, when, interval)` of the absent
Timer.h. The timer expires at `when`; it repeats when `interval > 0` ("repeat interval
(0 ⇒ one-shot)", "entries whose interval > 0" are re-inserted); the sequence id is the
next value of the process-wide counter `numCreated` (the first Timer gets 1). -/
def new (cb : φ) (when : Timestamp) (interval : Double) (numCreated : Int) :
    Timer φ × Int :=
  ({ callback_ := cb, expiration_ := when, interval_ := interval,
     repeat_ := Double.lt (Double.ofInt 0) interval, sequence_ := numCreated + 1 },
   numCreated + 1)

/-- Modelled from the spec: the accessor `expiration()` of the absent Timer.h. -/
def expiration (t : Timer φ) : Timestamp := t.expiration_

/-- Modelled from the spec: the accessor `repeat()` of the absent Timer.h. -/
def «repeat» (t : Timer φ) : Bool := t.repeat_

/-- Modelled from the spec: the accessor `sequence()` of the absent Timer.h. -/
def sequence (t : Timer φ) : Int := t.sequence_

end Timer

/-- Timers constructed one after the other from the requests `reqs`, the process-wide
counter being `numCreated` before the first construction: the Timers in order of
construction, and the counter afterwards. -/
def Timer.createAll {φ : Type} :
    List (φ × Timestamp × Double) → Int → List (Timer φ) × Int
  | [], numCreated => ([], numCreated)
  | r :: rest, numCreated =>
    let t := Timer.new r.1 r.2.1 r.2.2 numCreated
    let ts := Timer.createAll rest t.2
    (t.1 :: ts.1, ts.2)

/-! ## InetAddress (muduo/net/InetAddress.h, InetAddress.cc) -/

/-- The address family constants of the Linux `<sys/socket.h>`. -/
def AF_INET : Nat := 2
def AF_INET6 : Nat := 10

/-- The constants `INADDR_ANY` and `INADDR_LOOPBACK` of `<netinet/in.h>`. -/
def kInaddrAny : Nat := 0
def kInaddrLoopback : Nat := 0x7f000001

/-- The constants `in6addr_any` and `in6addr_loopback`, as 16 bytes. -/
def in6addr_any : List Nat := List.replicate 16 0
def in6addr_loopback : List Nat := List.replicate 15 0 ++ [1]

namespace sockets

/-- Modelled from the spec: `hostToNetwork16` of the absent muduo/net/Endian.h, the
"host↔network byte-order conversion" of a `uint16_t`: the two bytes are exchanged on a
little-endian host and kept on a big-endian one. -/
def hostToNetwork16 (littleEndian : Bool) (host16 : Nat) : Nat :=
  if littleEndian then host16 % 256 * 256 + host16 / 256 % 256 else host16 % 65536

/-- Modelled from the spec: `networkToHost16` of the absent muduo/net/Endian.h, the
"host↔network byte-order conversion" of a `uint16_t` in the other direction. -/
def networkToHost16 (littleEndian : Bool) (net16 : Nat) : Nat :=
  if littleEndian then net16 % 256 * 256 + net16 / 256 % 256 else net16 % 65536

/-- Modelled from the spec: `hostToNetwork32` of the absent muduo/net/Endian.h, the
"host↔network byte-order conversion" of a `uint32_t`: the four bytes are reversed on a
little-endian host and kept on a big-endian one. -/
def hostToNetwork32 (littleEndian : Bool) (host32 : Nat) : Nat :=
  if littleEndian then
    host32 % 256 * 16777216 + host32 / 256 % 256 * 65536 + host32 / 65536 % 256 * 256 +
      host32 / 16777216 % 256
  else host32 % 4294967296

end sockets

/-- The data of `class InetAddress`: the union of `sockaddr_in addr_` and
`sockaddr_in6 addr6_`, member by member at the offsets of the two structures. The
family (offset 0) and the port (offset 2) are the same bytes in both views, as the
`static_assert`s of InetAddress.cc say; `word4` (offset 4) is `sin_addr.s_addr` or
`sin6_flowinfo`; `bytes8` (offsets 8 to 23) is `sin6_addr`, whose first 8 bytes are
`sin_zero`; `sin6_scope_id` (offset 24) lies outside `sockaddr_in`. -/
structure InetAddress where
  sin_family : Nat
  sin_port : Nat
  word4 : Nat
  bytes8 : List Nat
  sin6_scope_id : Nat
deriving DecidableEq, Repr

namespace InetAddress

/-- `InetAddress::InetAddress(uint16_t portArg, bool loopbackOnly, bool ipv6)`. `raw` is
the content of the object's memory before construction (`memZero(&addr_, sizeof addr_)`
clears the first 16 bytes only) and `littleEndian` the byte order of the host. -/
def new (raw : InetAddress) (littleEndian : Bool) (portArg : Nat) (loopbackOnly ipv6 : Bool) :
    InetAddress :=
  if ipv6 then
    { sin_family := AF_INET6,
      sin_port := sockets.hostToNetwork16 littleEndian portArg,
      word4 := 0,
      bytes8 := if loopbackOnly then in6addr_loopback else in6addr_any,
      sin6_scope_id := 0 }
  else
    { sin_family := AF_INET,
      sin_port := sockets.hostToNetwork16 littleEndian portArg,
      word4 := sockets.hostToNetwork32 littleEndian
        (if loopbackOnly then kInaddrLoopback else kInaddrAny),
      bytes8 := List.replicate 8 0 ++ raw.bytes8.drop 8,
      sin6_scope_id := raw.sin6_scope_id }

def family (a : InetAddress) : Nat := a.sin_family

def portNetEndian (a : InetAddress) : Nat := a.sin_port

/-- `InetAddress::port`. -/
def port (a : InetAddress) (littleEndian : Bool) : Nat :=
  sockets.networkToHost16 littleEndian a.portNetEndian

/-- `InetAddress::setScopeId(uint32_t scope_id)`. -/
def setScopeId (a : InetAddress) (scope_id : Nat) : InetAddress :=
  if a.family == AF_INET6 then { a with sin6_scope_id := scope_id % 4294967296 }
  else a

end InetAddress

/-- A sample of uninitialised memory for an `InetAddress` object. -/
def InetAddress.sampleRaw : InetAddress :=
  { sin_family := 0xAAAA, sin_port := 0xBBBB, word4 := 0xCCCCCCCC,
    bytes8 := List.replicate 16 0xDD, sin6_scope_id := 0xEEEEEEEE }

/-! ## Vocabulary of the properties -/

/-- Flag `flag` is set in `mask`: every bit of the flag is present. -/
def isSet (mask flag : Nat) : Bool := mask &&& flag == flag

/-- The entries of a header map are in strictly increasing key order, as in every
`std::map`. -/
def HttpRequest.mapOk (headers : List (String × String)) : Prop :=
  headers.Pairwise (fun a b => a.1 < b.1)

/-- The entries of the header map stored under `field`. -/
def HttpRequest.entriesFor (r : HttpRequest) (field : String) : List (String × String) :=
  r.headers.filter (fun e => e.1 == field)

/-- The state carried by an outcome: the final state, or the state at the abort. -/
def Outcome.state {α : Type} : Outcome α → α
  | Outcome.ok s => s
  | Outcome.aborted s => s

/-- Whether the operation ran to completion. -/
def Outcome.isOk {α : Type} : Outcome α → Bool
  | Outcome.ok _ => true
  | Outcome.aborted _ => false

namespace Channel

variable {σ : Type}

/-- What identifies an invocation: the slot and the argument. -/
def signature (i : Invocation) : Slot × Option Timestamp := (i.slot, i.arg)

/-- HUP without readable data: POLLHUP is set and POLLIN is clear. -/
def closeSelected (revents : Nat) : Bool := isSet revents POLLHUP && !isSet revents POLLIN

/-- POLLERR or POLLNVAL is set. -/
def errorSelected (revents : Nat) : Bool := isSet revents POLLERR || isSet revents POLLNVAL

/-- Any of POLLIN, POLLPRI, POLLRDHUP is set. -/
def readSelected (revents : Nat) : Bool :=
  isSet revents POLLIN || isSet revents POLLPRI || isSet revents POLLRDHUP

/-- POLLOUT is set. -/
def writeSelected (revents : Nat) : Bool := isSet revents POLLOUT

/-- The dispatch policy: the four candidates in the order close, error, read, write,
each kept when its readiness condition holds and its slot is set. -/
def prescribedCalls (c : Channel σ) (receiveTime : Timestamp) :
    List (Slot × Option Timestamp) :=
  ([((Slot.close, none), closeSelected c.revents_ && c.closeCallback_.isSome),
    ((Slot.error, none), errorSelected c.revents_ && c.errorCallback_.isSome),
    ((Slot.read, some receiveTime), readSelected c.revents_ && c.readCallback_.isSome),
    ((Slot.write, none), writeSelected c.revents_ && c.writeCallback_.isSome)].filter
      (fun p => p.2)).map (fun p => p.1)

/-- Run a callback body when it is selected and its slot is set. -/
def runSelected (selected : Bool) (cb : Option (σ → σ)) (e : σ) : σ :=
  match selected, cb with
  | true, some f => f e
  | _, _ => e

/-- The environment after the selected callback bodies ran once each, in the order
close, error, read, write. -/
def prescribedEnv (c : Channel σ) (receiveTime : Timestamp) (e : σ) : σ :=
  runSelected (writeSelected c.revents_) c.writeCallback_
    (runSelected (readSelected c.revents_) (c.readCallback_.map (fun f => f receiveTime))
      (runSelected (errorSelected c.revents_) c.errorCallback_
        (runSelected (closeSelected c.revents_) c.closeCallback_ e)))

/-- The invocation recorded when a selected, set slot is called during dispatch. -/
def stepCalls (selected isSome : Bool) (i : Invocation) : List Invocation :=
  if selected && isSome then [i] else []

/-- The invocations recorded by one run of the guarded dispatch. -/
def newCalls (c : Channel σ) (receiveTime : Timestamp) : List Invocation :=
  stepCalls (closeSelected c.revents_) c.closeCallback_.isSome ⟨Slot.close, none, true⟩ ++
  (stepCalls (errorSelected c.revents_) c.errorCallback_.isSome ⟨Slot.error, none, true⟩ ++
  (stepCalls (readSelected c.revents_) c.readCallback_.isSome
      ⟨Slot.read, some receiveTime, true⟩ ++
   stepCalls (writeSelected c.revents_) c.writeCallback_.isSome ⟨Slot.write, none, true⟩))

/-- The invocations added to the trace by one `handleEvent` call. -/
def invoked (c : Channel σ) (receiveTime : Timestamp) (w : World σ) : List Invocation :=
  (c.handleEvent receiveTime w).2.calls.drop w.calls.length

/-- The slots invoked by one `handleEvent` call, in order of invocation. -/
def invokedSlots (c : Channel σ) (receiveTime : Timestamp) (w : World σ) : List Slot :=
  (invoked c receiveTime w).map (fun i => i.slot)

/-- Slot `a` is invoked, slot `b` is invoked, and `a` comes first. -/
def precedes (a b : Slot) (l : List Slot) : Prop :=
  a ∈ l ∧ b ∈ l ∧ l.indexOf a < l.indexOf b

instance (a b : Slot) (l : List Slot) : Decidable (precedes a b l) := by
  unfold precedes
  infer_instance

/-- The Channel is untied, or tied to an anchor that is still alive. -/
def dispatches (c : Channel σ) : Prop := c.tied_ = false ∨ c.tie_.lock = true

/-- The interest masks a Channel can hold: none, read, write, read and write. -/
@[reducible]
def interestOk (events : Nat) : Prop :=
  events = 0 ∨ events = kReadEvent ∨ events = kWriteEvent ∨ events = (kReadEvent ||| kWriteEvent)

/-- The seven event bits that `eventsToString` decodes, with their tokens, in the
order of the rendering. -/
def eventTokens : List (Nat × String) :=
  [(POLLIN, "IN "), (POLLPRI, "PRI "), (POLLOUT, "OUT "), (POLLHUP, "HUP "),
    (POLLRDHUP, "RDHUP "), (POLLERR, "ERR "), (POLLNVAL, "NVAL ")]

/-- The rendering of a mask: the decimal fd, `": "`, then the token of every decoded
bit that is set in `ev`, in the fixed order. -/
def renderEvents (fd : Int) (ev : Nat) : String :=
  ToString.toString fd ++ ": " ++
    String.join ((eventTokens.filter (fun t => isSet ev t.1)).map (fun t => t.2))

/-- The mask of the seven decoded bits. -/
def decodedBits : Nat :=
  POLLIN ||| POLLPRI ||| POLLOUT ||| POLLHUP ||| POLLRDHUP ||| POLLERR ||| POLLNVAL

/-! ### Sample inputs -/

/-- A loop that has not seen the Channel yet. -/
def sampleLoop : EventLoop :=
  { registered := false, interest := 0, calls := [], demultiplexer := Demultiplexer.epoll }

/-- A sample Channel on the epoll-style `sampleLoop`, after `enableReading()` and
`disableAll()`. -/
def sampleDisabled : Channel Unit := ((Channel.new sampleLoop 7).enableReading).disableAll

/-- A Channel on fd 7 whose four callbacks append their slot to the environment,
with readiness mask `revents`. -/
def sampleChannel (revents : Nat) : Channel (List Slot) :=
  (((((Channel.new sampleLoop 7).setReadCallback (some (fun _ e => e ++ [Slot.read]))
    ).setWriteCallback (some (fun e => e ++ [Slot.write]))
    ).setCloseCallback (some (fun e => e ++ [Slot.close]))
    ).setErrorCallback (some (fun e => e ++ [Slot.error]))).set_revents revents

def sampleWorld : World (List Slot) := { env := [], calls := [], log := [] }

def sampleTime : Timestamp := ⟨1700000000000000⟩

end Channel

/-! ## Bit tests -/

theorem or_eq_zero_iff_both (a b : Nat) : a ||| b = 0 ↔ a = 0 ∧ b = 0 := by
  constructor
  · intro h
    constructor
    · apply Nat.eq_of_testBit_eq
      intro i
      have := congrArg (fun n => Nat.testBit n i) h
      simp only [Nat.testBit_or, Nat.zero_testBit, Bool.or_eq_false_iff] at this
      simp [this.1]
    · apply Nat.eq_of_testBit_eq
      intro i
      have := congrArg (fun n => Nat.testBit n i) h
      simp only [Nat.testBit_or, Nat.zero_testBit, Bool.or_eq_false_iff] at this
      simp [this.2]
  · rintro ⟨rfl, rfl⟩
    rfl

theorem test_or (x a b : Nat) :
    (x &&& (a ||| b) != 0) = ((x &&& a != 0) || (x &&& b != 0)) := by
  rw [Nat.and_or_distrib_left, Bool.eq_iff_iff]
  simp only [bne_iff_ne, ne_eq, or_eq_zero_iff_both, Bool.or_eq_true]
  tauto

theorem test_two_pow (x i : Nat) : (x &&& 2 ^ i != 0) = isSet x (2 ^ i) := by
  unfold isSet
  rw [Nat.and_two_pow]
  have h : 2 ^ i ≠ 0 := (Nat.two_pow_pos i).ne.symm
  cases x.testBit i <;> simp [h, h.symm]

theorem test_POLLIN (x : Nat) : (x &&& POLLIN != 0) = isSet x POLLIN := test_two_pow x 0
theorem test_POLLPRI (x : Nat) : (x &&& POLLPRI != 0) = isSet x POLLPRI := test_two_pow x 1
theorem test_POLLOUT (x : Nat) : (x &&& POLLOUT != 0) = isSet x POLLOUT := test_two_pow x 2
theorem test_POLLERR (x : Nat) : (x &&& POLLERR != 0) = isSet x POLLERR := test_two_pow x 3
theorem test_POLLHUP (x : Nat) : (x &&& POLLHUP != 0) = isSet x POLLHUP := test_two_pow x 4
theorem test_POLLNVAL (x : Nat) : (x &&& POLLNVAL != 0) = isSet x POLLNVAL := test_two_pow x 5
theorem test_POLLRDHUP (x : Nat) : (x &&& POLLRDHUP != 0) = isSet x POLLRDHUP :=
  test_two_pow x 13

namespace Channel

variable {σ : Type}

theorem closeSelected_eq (r : Nat) :
    ((r &&& POLLHUP != 0) && !(r &&& POLLIN != 0)) = closeSelected r := by
  simp only [closeSelected, test_POLLHUP, test_POLLIN]

theorem errorSelected_eq (r : Nat) : (r &&& (POLLERR ||| POLLNVAL) != 0) = errorSelected r := by
  simp only [errorSelected, test_or, test_POLLERR, test_POLLNVAL]

theorem readSelected_eq (r : Nat) :
    (r &&& (POLLIN ||| POLLPRI ||| POLLRDHUP) != 0) = readSelected r := by
  simp only [readSelected, test_or, test_POLLIN, test_POLLPRI, test_POLLRDHUP]

theorem writeSelected_eq (r : Nat) : (r &&& POLLOUT != 0) = writeSelected r := by
  simp only [writeSelected, test_POLLOUT]

/-! ## The guarded dispatch, statement by statement -/

theorem step_event (sel : Bool) (c : Channel σ) (s : Slot) (cb : EventCallback σ)
    (w : World σ) :
    (if sel then callEvent c s cb w else w).calls =
        w.calls ++ stepCalls sel cb.isSome ⟨s, none, c.eventHandling_⟩ ∧
      (if sel then callEvent c s cb w else w).env = runSelected sel cb w.env ∧
      (if sel then callEvent c s cb w else w).log = w.log := by
  cases sel <;> cases cb <;> simp [callEvent, stepCalls, runSelected]

theorem step_read (sel : Bool) (c : Channel σ) (T : Timestamp) (w : World σ) :
    (if sel then callRead c T w else w).calls =
        w.calls ++ stepCalls sel c.readCallback_.isSome ⟨Slot.read, some T, c.eventHandling_⟩ ∧
      (if sel then callRead c T w else w).env =
        runSelected sel (c.readCallback_.map (fun f => f T)) w.env ∧
      (if sel then callRead c T w else w).log = w.log := by
  cases sel <;> cases h : c.readCallback_ <;> simp [callRead, stepCalls, runSelected, h]

theorem step_log (b : Bool) (lvl : LogLevel) (msg : String) (w : World σ) :
    (if b then logLine w lvl msg else w).calls = w.calls ∧
      (if b then logLine w lvl msg else w).env = w.env := by
  cases b <;> simp [logLine]

theorem step_close (sel : Bool) (b : Bool) (msg : String) (c : Channel σ) (cb : EventCallback σ)
    (w : World σ) :
    (if sel then callEvent c Slot.close cb (if b then logLine w LogLevel.warn msg else w)
      else w).calls = w.calls ++ stepCalls sel cb.isSome ⟨Slot.close, none, c.eventHandling_⟩ ∧
    (if sel then callEvent c Slot.close cb (if b then logLine w LogLevel.warn msg else w)
      else w).env = runSelected sel cb w.env := by
  cases sel <;> cases cb <;> cases b <;> simp [callEvent, stepCalls, runSelected, logLine]

theorem guard_world (c : Channel σ) (T : Timestamp) (w : World σ) :
    (c.handleEventWithGuard T w).2.calls = w.calls ++ newCalls c T ∧
      (c.handleEventWithGuard T w).2.env = prescribedEnv c T w.env := by
  simp only [handleEventWithGuard, closeSelected_eq, errorSelected_eq, readSelected_eq,
    writeSelected_eq, newCalls, prescribedEnv]
  constructor
  · rw [(step_event _ _ _ _ _).1, (step_read _ _ _ _).1, (step_event _ _ _ _ _).1,
      (step_log _ _ _ _).1, (step_close _ _ _ _ _ _).1, logLine]
    simp only [List.append_assoc]
  · rw [(step_event _ _ _ _ _).2.1, (step_read _ _ _ _).2.1, (step_event _ _ _ _ _).2.1,
      (step_log _ _ _ _).2, (step_close _ _ _ _ _ _).2, logLine]

theorem guard_channel (c : Channel σ) (T : Timestamp) (w : World σ) :
    (c.handleEventWithGuard T w).1 = { c with eventHandling_ := false } := by
  simp [handleEventWithGuard]

theorem guard_log_nval (c : Channel σ) (T : Timestamp) (w : World σ)
    (h : (c.revents_ &&& POLLNVAL != 0) = true) :
    (LogLevel.warn, "fd = " ++ toString c.fd_ ++ " Channel::handle_event() POLLNVAL") ∈
      (c.handleEventWithGuard T w).2.log := by
  simp only [handleEventWithGuard, h, if_true]
  rw [(step_event _ _ _ _ _).2.2, (step_read _ _ _ _).2.2, (step_event _ _ _ _ _).2.2]
  simp [logLine]

theorem newCalls_signature (c : Channel σ) (T : Timestamp) :
    (newCalls c T).map signature = prescribedCalls c T := by
  simp only [newCalls, prescribedCalls, stepCalls]
  generalize closeSelected c.revents_ = b1
  generalize errorSelected c.revents_ = b2
  generalize readSelected c.revents_ = b3
  generalize writeSelected c.revents_ = b4
  generalize c.closeCallback_.isSome = s1
  generalize c.errorCallback_.isSome = s2
  generalize c.readCallback_.isSome = s3
  generalize c.writeCallback_.isSome = s4
  cases b1 <;> cases b2 <;> cases b3 <;> cases b4 <;>
    cases s1 <;> cases s2 <;> cases s3 <;> cases s4 <;> rfl

theorem newCalls_handling (c : Channel σ) (T : Timestamp) :
    ∀ i ∈ newCalls c T, i.handling = true := by
  intro i hi
  simp only [newCalls, stepCalls, List.mem_append] at hi
  rcases hi with hi | hi | hi | hi <;> split at hi <;> simp_all

/-- The slots of `newCalls`: the sublist of close, error, read, write picked by four
truth values. -/
theorem newCalls_slots (c : Channel σ) (T : Timestamp) :
    (newCalls c T).map (fun i => i.slot) =
      (if closeSelected c.revents_ && c.closeCallback_.isSome then [Slot.close] else []) ++
      ((if errorSelected c.revents_ && c.errorCallback_.isSome then [Slot.error] else []) ++
      ((if readSelected c.revents_ && c.readCallback_.isSome then [Slot.read] else []) ++
       (if writeSelected c.revents_ && c.writeCallback_.isSome then [Slot.write] else []))) := by
  simp only [newCalls, stepCalls]
  generalize (closeSelected c.revents_ && c.closeCallback_.isSome) = b1
  generalize (errorSelected c.revents_ && c.errorCallback_.isSome) = b2
  generalize (readSelected c.revents_ && c.readCallback_.isSome) = b3
  generalize (writeSelected c.revents_ && c.writeCallback_.isSome) = b4
  cases b1 <;> cases b2 <;> cases b3 <;> cases b4 <;> rfl

theorem handleEvent_of_dispatches (c : Channel σ) (T : Timestamp) (w : World σ)
    (h : dispatches c) : c.handleEvent T w = c.handleEventWithGuard T w := by
  unfold handleEvent
  rcases h with h | h <;> simp [h]

theorem handleEvent_of_gone (c : Channel σ) (T : Timestamp) (w : World σ)
    (ht : c.tied_ = true) (hd : c.tie_.lock = false) : c.handleEvent T w = (c, w) := by
  unfold handleEvent
  simp [ht, hd]

theorem invoked_of_dispatches (c : Channel σ) (T : Timestamp) (w : World σ)
    (h : dispatches c) : invoked c T w = newCalls c T := by
  unfold invoked
  rw [handleEvent_of_dispatches c T w h, (guard_world c T w).1, List.drop_left]

theorem invoked_of_not_dispatches (c : Channel σ) (T : Timestamp) (w : World σ)
    (h : ¬ dispatches c) : invoked c T w = [] := by
  unfold invoked
  have ht : c.tied_ = true := by
    cases hc : c.tied_
    · exact absurd (Or.inl hc) h
    · rfl
  have hd : c.tie_.lock = false := by
    cases hc : c.tie_.lock
    · rfl
    · exact absurd (Or.inr hc) h
  rw [handleEvent_of_gone c T w ht hd]
  simp

end Channel

/-! ## Event dispatch -/

namespace Channel

variable {σ : Type}

/-- C1: when the Channel is untied or its anchor is alive, `handleEvent(T)` appends to
the trace exactly the prescribed invocations: close (HUP set, IN clear), error (ERR or
NVAL set), read with argument `T` (IN, PRI or RDHUP set), write (OUT set), in this
order, each at most once and only when its slot is set; the callback bodies run in
that order, and an unset slot is skipped. -/
theorem handleEvent_dispatch_policy (c : Channel σ) (T : Timestamp) (w : World σ)
    (h : c.tied_ = false ∨ c.tie_.lock = true) :
    (c.handleEvent T w).2.calls = w.calls ++ invoked c T w ∧
      (invoked c T w).map signature = prescribedCalls c T ∧
      (c.handleEvent T w).2.env = prescribedEnv c T w.env := by
  have hd : dispatches c := h
  rw [invoked_of_dispatches c T w hd, handleEvent_of_dispatches c T w hd]
  exact ⟨(guard_world c T w).1, newCalls_signature c T, (guard_world c T w).2⟩

/-- C1 at a sample: all four callbacks set, mask HUP, ERR, RDHUP, OUT. -/
theorem handleEvent_dispatch_policy_witness :
    ((sampleChannel (POLLHUP ||| POLLERR ||| POLLRDHUP ||| POLLOUT)).tied_ = false ∨
      (sampleChannel (POLLHUP ||| POLLERR ||| POLLRDHUP ||| POLLOUT)).tie_.lock = true) ∧
    prescribedCalls (sampleChannel (POLLHUP ||| POLLERR ||| POLLRDHUP ||| POLLOUT)) sampleTime =
      [(Slot.close, none), (Slot.error, none), (Slot.read, some sampleTime),
        (Slot.write, none)] ∧
    (invoked (sampleChannel (POLLHUP ||| POLLERR ||| POLLRDHUP ||| POLLOUT)) sampleTime
        sampleWorld).map signature =
      prescribedCalls (sampleChannel (POLLHUP ||| POLLERR ||| POLLRDHUP ||| POLLOUT))
        sampleTime :=
  ⟨Or.inl rfl, by decide,
    (handleEvent_dispatch_policy (sampleChannel (POLLHUP ||| POLLERR ||| POLLRDHUP ||| POLLOUT))
      sampleTime sampleWorld (Or.inl rfl)).2.1⟩

/-- C2: on a tied Channel whose anchor no longer upgrades, `handleEvent` returns with
the Channel (every field, the handling flag included) and the world unchanged: no
callback is invoked, nothing is logged. -/
theorem handleEvent_anchor_destroyed (c : Channel σ) (T : Timestamp) (w : World σ)
    (ht : c.tied_ = true) (hd : c.tie_.lock = false) :
    c.handleEvent T w = (c, w) ∧ invoked c T w = [] := by
  refine ⟨handleEvent_of_gone c T w ht hd, ?_⟩
  apply invoked_of_not_dispatches
  rintro (h | h)
  · rw [ht] at h
    exact Bool.noConfusion h
  · rw [hd] at h
    exact Bool.noConfusion h

/-- C2 at a sample: tie to an anchor, drop the anchor, then make the fd readable. -/
theorem handleEvent_anchor_destroyed_witness :
    (((sampleChannel POLLIN).tie SharedPtr.owning).anchorDestroyed).tied_ = true ∧
    (((sampleChannel POLLIN).tie SharedPtr.owning).anchorDestroyed).tie_.lock = false ∧
    (((sampleChannel POLLIN).tie SharedPtr.owning).anchorDestroyed).handleEvent sampleTime
        sampleWorld =
      ((((sampleChannel POLLIN).tie SharedPtr.owning).anchorDestroyed), sampleWorld) :=
  ⟨rfl, rfl,
    (handleEvent_anchor_destroyed (((sampleChannel POLLIN).tie SharedPtr.owning).anchorDestroyed)
      sampleTime sampleWorld rfl rfl).1⟩

/-- C3, refuted as stated: with both callbacks set and mask HUP, RDHUP the call invokes
close and then read, so read does not precede close. -/
theorem read_before_close_counterexample :
    (sampleChannel (POLLHUP ||| POLLRDHUP)).readCallback_.isSome = true ∧
    (sampleChannel (POLLHUP ||| POLLRDHUP)).closeCallback_.isSome = true ∧
    invokedSlots (sampleChannel (POLLHUP ||| POLLRDHUP)) sampleTime sampleWorld =
      [Slot.close, Slot.read] ∧
    ¬ (Slot.read ∈ invokedSlots (sampleChannel (POLLHUP ||| POLLRDHUP)) sampleTime sampleWorld →
       Slot.close ∈ invokedSlots (sampleChannel (POLLHUP ||| POLLRDHUP)) sampleTime sampleWorld →
       precedes Slot.read Slot.close
         (invokedSlots (sampleChannel (POLLHUP ||| POLLRDHUP)) sampleTime sampleWorld)) := by
  decide

/-- C3, amended: within one `handleEvent` call read never precedes close; when both
are invoked, close comes first; and when POLLIN is set, close is not invoked. -/
theorem handleEvent_close_before_read (c : Channel σ) (T : Timestamp) (w : World σ) :
    ¬ precedes Slot.read Slot.close (invokedSlots c T w) ∧
    (Slot.close ∈ invokedSlots c T w → Slot.read ∈ invokedSlots c T w →
      precedes Slot.close Slot.read (invokedSlots c T w)) ∧
    (isSet c.revents_ POLLIN = true → Slot.close ∉ invokedSlots c T w) := by
  by_cases hd : dispatches c
  · have hs : invokedSlots c T w = (newCalls c T).map (fun i => i.slot) := by
      unfold invokedSlots
      rw [invoked_of_dispatches c T w hd]
    rw [hs, newCalls_slots]
    refine ⟨?_, ?_, ?_⟩
    · generalize (closeSelected c.revents_ && c.closeCallback_.isSome) = b1
      generalize (errorSelected c.revents_ && c.errorCallback_.isSome) = b2
      generalize (readSelected c.revents_ && c.readCallback_.isSome) = b3
      generalize (writeSelected c.revents_ && c.writeCallback_.isSome) = b4
      cases b1 <;> cases b2 <;> cases b3 <;> cases b4 <;> decide
    · generalize (closeSelected c.revents_ && c.closeCallback_.isSome) = b1
      generalize (errorSelected c.revents_ && c.errorCallback_.isSome) = b2
      generalize (readSelected c.revents_ && c.readCallback_.isSome) = b3
      generalize (writeSelected c.revents_ && c.writeCallback_.isSome) = b4
      cases b1 <;> cases b2 <;> cases b3 <;> cases b4 <;> decide
    · intro hin
      have hc : closeSelected c.revents_ = false := by simp [closeSelected, hin]
      rw [hc, Bool.false_and]
      generalize (errorSelected c.revents_ && c.errorCallback_.isSome) = b2
      generalize (readSelected c.revents_ && c.readCallback_.isSome) = b3
      generalize (writeSelected c.revents_ && c.writeCallback_.isSome) = b4
      cases b2 <;> cases b3 <;> cases b4 <;> decide
  · have hs : invokedSlots c T w = [] := by
      unfold invokedSlots
      rw [invoked_of_not_dispatches c T w hd]
      rfl
    rw [hs]
    exact ⟨by decide, by decide, fun _ => List.not_mem_nil _⟩

/-- C6: in a dispatching `handleEvent` call the handling flag is true whenever a
callback is entered, and it is false when `handleEvent` has returned, whatever the
readiness mask. -/
theorem handleEvent_handling_flag (c : Channel σ) (T : Timestamp) (w : World σ)
    (h : c.tied_ = false ∨ c.tie_.lock = true) :
    (c.handleEvent T w).1.eventHandling_ = false ∧
      (c.handleEvent T w).2.calls = w.calls ++ invoked c T w ∧
      ∀ i ∈ invoked c T w, i.handling = true := by
  have hd : dispatches c := h
  rw [invoked_of_dispatches c T w hd, handleEvent_of_dispatches c T w hd, guard_channel]
  exact ⟨rfl, (guard_world c T w).1, newCalls_handling c T⟩

/-- C6 at two samples: a mask that selects three callbacks, and the empty mask. -/
theorem handleEvent_handling_flag_witness :
    ((sampleChannel (POLLIN ||| POLLOUT ||| POLLERR)).tied_ = false ∨
      (sampleChannel (POLLIN ||| POLLOUT ||| POLLERR)).tie_.lock = true) ∧
    (invoked (sampleChannel (POLLIN ||| POLLOUT ||| POLLERR)) sampleTime sampleWorld).length = 3 ∧
    (∀ i ∈ invoked (sampleChannel (POLLIN ||| POLLOUT ||| POLLERR)) sampleTime sampleWorld,
      i.handling = true) ∧
    ((sampleChannel 0).handleEvent sampleTime sampleWorld).1.eventHandling_ = false :=
  ⟨Or.inl rfl, by decide,
    (handleEvent_handling_flag (sampleChannel (POLLIN ||| POLLOUT ||| POLLERR)) sampleTime
      sampleWorld (Or.inl rfl)).2.2,
    (handleEvent_handling_flag (sampleChannel 0) sampleTime sampleWorld (Or.inl rfl)).1⟩

/-- C9, refuted as stated: with mask NVAL, HUP the invalid-fd bit is set and the close
callback is invoked all the same. -/
theorem nval_no_close_counterexample :
    isSet (POLLNVAL ||| POLLHUP) POLLNVAL = true ∧
    invokedSlots (sampleChannel (POLLNVAL ||| POLLHUP)) sampleTime sampleWorld =
      [Slot.close, Slot.error] := by
  decide

/-- C9, amended: with POLLNVAL set, the close callback is invoked exactly under the
hang-up rule (dispatching call, HUP set, IN clear, slot set), so not at all when HUP is
clear or IN is set; the invalid-fd condition is logged and the error callback, when
set, is invoked. -/
theorem handleEvent_nval (c : Channel σ) (T : Timestamp) (w : World σ)
    (hn : isSet c.revents_ POLLNVAL = true) :
    (Slot.close ∈ invokedSlots c T w ↔
      (dispatches c ∧ closeSelected c.revents_ = true ∧ c.closeCallback_.isSome = true)) ∧
    (dispatches c →
      (LogLevel.warn, "fd = " ++ toString c.fd_ ++ " Channel::handle_event() POLLNVAL") ∈
        (c.handleEvent T w).2.log ∧
      (Slot.error ∈ invokedSlots c T w ↔ c.errorCallback_.isSome = true)) := by
  have he : errorSelected c.revents_ = true := by simp [errorSelected, hn]
  by_cases hd : dispatches c
  · have hs : invokedSlots c T w = (newCalls c T).map (fun i => i.slot) := by
      unfold invokedSlots
      rw [invoked_of_dispatches c T w hd]
    rw [hs, newCalls_slots, he]
    refine ⟨?_, fun _ => ⟨?_, ?_⟩⟩
    · generalize closeSelected c.revents_ = b1
      generalize c.closeCallback_.isSome = s1
      generalize (true && c.errorCallback_.isSome) = b2
      generalize (readSelected c.revents_ && c.readCallback_.isSome) = b3
      generalize (writeSelected c.revents_ && c.writeCallback_.isSome) = b4
      cases b1 <;> cases s1 <;> cases b2 <;> cases b3 <;> cases b4 <;> simp [hd]
    · rw [handleEvent_of_dispatches c T w hd]
      exact guard_log_nval c T w (by rw [test_POLLNVAL]; exact hn)
    · generalize (closeSelected c.revents_ && c.closeCallback_.isSome) = b1
      generalize c.errorCallback_.isSome = s2
      generalize (readSelected c.revents_ && c.readCallback_.isSome) = b3
      generalize (writeSelected c.revents_ && c.writeCallback_.isSome) = b4
      cases b1 <;> cases s2 <;> cases b3 <;> cases b4 <;> simp
  · have hs : invokedSlots c T w = [] := by
      unfold invokedSlots
      rw [invoked_of_not_dispatches c T w hd]
      rfl
    rw [hs]
    simp [hd]

/-- C9 (amended) at a sample: mask NVAL alone invokes error and not close. -/
theorem handleEvent_nval_witness :
    isSet (sampleChannel POLLNVAL).revents_ POLLNVAL = true ∧
    (Slot.close ∈ invokedSlots (sampleChannel POLLNVAL) sampleTime sampleWorld ↔
      (dispatches (sampleChannel POLLNVAL) ∧ closeSelected (sampleChannel POLLNVAL).revents_ = true ∧
        (sampleChannel POLLNVAL).closeCallback_.isSome = true)) ∧
    invokedSlots (sampleChannel POLLNVAL) sampleTime sampleWorld = [Slot.error] :=
  ⟨by decide, (handleEvent_nval (sampleChannel POLLNVAL) sampleTime sampleWorld (by decide)).1,
    by decide⟩

end Channel

/-! ## Interest mask and lifecycle -/

namespace Channel

variable {σ : Type}

theorem complement32_kReadEvent : complement32 kReadEvent = 4294967292 := by decide

theorem complement32_kWriteEvent : complement32 kWriteEvent = 4294967291 := by decide

theorem and_or_right (a b m : Nat) : (a ||| b) &&& m = (a &&& m) ||| (b &&& m) := by
  rw [Nat.and_comm, Nat.and_or_distrib_left, Nat.and_comm m a, Nat.and_comm m b]

theorem enable_disable_events (c : Channel σ) :
    (c.enableReading.disableReading).events_ = c.events_ &&& complement32 kReadEvent := by
  show (c.events_ ||| kReadEvent) &&& complement32 kReadEvent = _
  rw [and_or_right]
  have h : kReadEvent &&& complement32 kReadEvent = 0 := by decide
  rw [h, Nat.or_zero]

theorem and_complement_eq_iff (e : Nat) (h32 : e < 2 ^ 32) :
    e &&& complement32 kReadEvent = e ↔ e &&& kReadEvent = 0 := by
  constructor
  · intro h
    rw [← h, Nat.and_assoc]
    have h0 : complement32 kReadEvent &&& kReadEvent = 0 := by decide
    rw [h0, Nat.and_zero]
  · intro h
    have hm : e &&& (2 ^ 32 - 1) = e := by
      rw [Nat.and_pow_two_sub_one_eq_mod, Nat.mod_eq_of_lt h32]
    have hs : (2 ^ 32 - 1 : Nat) = complement32 kReadEvent ||| kReadEvent := by decide
    rw [hs, Nat.and_or_distrib_left, h, Nat.or_zero] at hm
    exact hm

theorem interestOk_apply (op : Op σ) (c : Channel σ) (h : interestOk c.events_) :
    interestOk (op.apply c).events_ := by
  cases op <;>
    first
    | exact h
    | (rcases h with h | h | h | h <;>
        simp only [Op.apply, enableReading, disableReading, enableWriting, disableWriting,
          disableAll, update, h] <;> decide)

theorem interestOk_run (ops : List (Op σ)) (c : Channel σ) (h : interestOk c.events_) :
    interestOk (run ops c).events_ := by
  induction ops generalizing c with
  | nil => exact h
  | cons op ops ih => exact ih (op.apply c) (interestOk_apply op c h)

theorem eventHandling_apply (op : Op σ) (c : Channel σ) :
    (op.apply c).eventHandling_ = c.eventHandling_ := by
  cases op <;> rfl

theorem eventHandling_run (ops : List (Op σ)) (c : Channel σ) :
    (run ops c).eventHandling_ = c.eventHandling_ := by
  induction ops generalizing c with
  | nil => rfl
  | cons op ops ih =>
    show (run ops (op.apply c)).eventHandling_ = _
    rw [ih, eventHandling_apply]

/-- C4, refuted as stated: a Channel that is already reading (mask POLLIN | POLLPRI)
ends with mask 0 after `enableReading(); disableReading()`. -/
theorem enable_disable_reading_counterexample :
    ((sampleChannel 0).enableReading).events_ = 3 ∧
    (((sampleChannel 0).enableReading).enableReading.disableReading).events_ = 0 ∧
    (((sampleChannel 0).enableReading).enableReading.disableReading).events_ ≠
      ((sampleChannel 0).enableReading).events_ := by
  decide

/-- C4, amended: `enableReading(); disableReading()` yields the previous interest mask
with the kReadEvent bits cleared, and (for a 32-bit mask) this is the previous mask
exactly when neither POLLIN nor POLLPRI was set in it. -/
theorem enable_disable_reading (c : Channel σ) (h32 : c.events_ < 2 ^ 32) :
    (c.enableReading.disableReading).events_ = c.events_ &&& complement32 kReadEvent ∧
    ((c.enableReading.disableReading).events_ = c.events_ ↔ c.events_ &&& kReadEvent = 0) := by
  rw [enable_disable_events]
  exact ⟨rfl, and_complement_eq_iff c.events_ h32⟩

/-- C4 (amended) at a sample: a Channel that only writes keeps its mask. -/
theorem enable_disable_reading_witness :
    ((sampleChannel 0).enableWriting).events_ < 2 ^ 32 ∧
    ((sampleChannel 0).enableWriting).events_ &&& kReadEvent = 0 ∧
    (((sampleChannel 0).enableWriting).enableReading.disableReading).events_ =
      ((sampleChannel 0).enableWriting).events_ :=
  ⟨by decide, by decide,
    (enable_disable_reading ((sampleChannel 0).enableWriting) (by decide)).2.2 (by decide)⟩

/-- C5: a fresh Channel has interest mask 0, and after any sequence of public mutators
the mask has no bit outside kReadEvent | kWriteEvent, and its read part is all of
kReadEvent or none of it (POLLIN and POLLPRI are set together or not at all). -/
theorem interest_mask_invariant (loop : EventLoop) (fd : Int) (ops : List (Op σ)) :
    (Channel.new loop fd : Channel σ).events_ = 0 ∧
    (run ops (Channel.new loop fd)).events_ &&& (kReadEvent ||| kWriteEvent) =
      (run ops (Channel.new loop fd)).events_ ∧
    ((run ops (Channel.new loop fd)).events_ &&& kReadEvent = kReadEvent ∨
      (run ops (Channel.new loop fd)).events_ &&& kReadEvent = 0) ∧
    isSet (run ops (Channel.new loop fd)).events_ POLLIN =
      isSet (run ops (Channel.new loop fd)).events_ POLLPRI := by
  have h := interestOk_run ops (Channel.new loop fd : Channel σ) (Or.inl rfl)
  refine ⟨rfl, ?_, ?_, ?_⟩ <;> rcases h with h | h | h | h <;> rw [h] <;> decide

end Channel

namespace Channel

variable {σ : Type}

theorem addedToLoop_apply (op : Op σ) (c : Channel σ) :
    (op.apply c).addedToLoop_ = (c.addedToLoop_ || op.isInterestOp) := by
  cases op <;> simp [Op.apply, Op.isInterestOp, enableReading, disableReading, enableWriting,
    disableWriting, disableAll, update, tie, set_revents, set_index, setReadCallback,
    setWriteCallback, setCloseCallback, setErrorCallback, doNotLogHup]

theorem addedToLoop_handleEvent (c : Channel σ) (T : Timestamp) (w : World σ) :
    (c.handleEvent T w).1.addedToLoop_ = c.addedToLoop_ := by
  by_cases hd : dispatches c
  · rw [handleEvent_of_dispatches c T w hd, guard_channel]
  · have hi : ¬ (c.tied_ = false ∨ c.tie_.lock = true) := hd
    rw [not_or, Bool.not_eq_false, Bool.not_eq_true] at hi
    rw [handleEvent_of_gone c T w hi.1 hi.2]

/-- C7: the destructor's assertions pass exactly when the Channel is not handling an
event, is not added to the loop and (on the loop thread) the loop does not have it.
The added-to-loop flag is false on a fresh Channel, true after each of the five
interest operations (so `disableAll()` alone leaves the Channel not destructible),
is never cleared by a mutator other than `remove()`, nor by `handleEvent`, and after
any sequence of operations followed by `disableAll()` and `remove()` the Channel is
destructible. -/
theorem destructor_lifecycle (loop : EventLoop) (fd : Int) (c : Channel σ)
    (inLoopThread : Bool) (op : Op σ) (ops : List (Op σ)) (T : Timestamp) (w : World σ) :
    (c.destructorOk inLoopThread = true ↔
      (c.eventHandling_ = false ∧ c.addedToLoop_ = false ∧
        (inLoopThread = true → c.loop_.hasChannel = false))) ∧
    (Channel.new loop fd : Channel σ).addedToLoop_ = false ∧
    (c.enableReading.addedToLoop_ = true ∧ c.disableReading.addedToLoop_ = true ∧
      c.enableWriting.addedToLoop_ = true ∧ c.disableWriting.addedToLoop_ = true ∧
      c.disableAll.addedToLoop_ = true) ∧
    c.disableAll.destructorOk inLoopThread = false ∧
    (op.apply c).addedToLoop_ = (c.addedToLoop_ || op.isInterestOp) ∧
    (c.handleEvent T w).1.addedToLoop_ = c.addedToLoop_ ∧
    (∃ c', (run ops (Channel.new loop fd : Channel σ)).disableAll.remove = Outcome.ok c' ∧
      c'.addedToLoop_ = false ∧ c'.destructorOk inLoopThread = true) := by
  refine ⟨?_, rfl, ⟨rfl, rfl, rfl, rfl, rfl⟩, ?_, addedToLoop_apply op c,
    addedToLoop_handleEvent c T w, ?_⟩
  · unfold destructorOk
    cases c.eventHandling_ <;> cases c.addedToLoop_ <;> cases inLoopThread <;>
      cases c.loop_.hasChannel <;> simp
  · unfold destructorOk
    cases hc : c.disableAll.eventHandling_
    · rfl
    · rfl
  · have he : (run ops (Channel.new loop fd : Channel σ)).eventHandling_ = false :=
      eventHandling_run ops (Channel.new loop fd)
    refine ⟨_, rfl, rfl, ?_⟩
    unfold destructorOk
    cases inLoopThread <;>
      simp [disableAll, update, he, EventLoop.removeChannel, EventLoop.hasChannel]

theorem removeFrom_of_events (c : Channel σ) (inLoopThread activeEvents : Bool)
    (h : c.events_ ≠ 0) : c.removeFrom inLoopThread activeEvents = Outcome.aborted c := by
  simp [removeFrom, isNoneEvent, kNoneEvent, h]

theorem removeFrom_of_none (c : Channel σ) (h : c.events_ = 0) :
    c.removeFrom true false =
      Outcome.ok { c with
        addedToLoop_ := false
        loop_ := { c.loop_ with
          calls := c.loop_.calls ++ [LoopCall.removeChannel]
          registered := false }
        index_ := c.loop_.demultiplexer.afterRemove c.index_ } := by
  simp [removeFrom, isNoneEvent, kNoneEvent, h, EventLoop.removeChannel]

/-- C8, refuted as stated, on the Channel left by `enableReading()` and `disableAll()`
on a loop with the epoll-style back-end: its interest mask is zero and its index is
the added-but-disabled state; `remove()` on the loop's thread succeeds and leaves the
index in the never-added state, not unchanged; `remove()` from another thread, or
with active events outstanding, does not succeed although the mask is zero. -/
theorem remove_index_counterexample :
    sampleDisabled.events_ = 0 ∧ sampleDisabled.index_ = 2 ∧
    sampleDisabled.remove.isOk = true ∧ sampleDisabled.remove.state.index_ = -1 ∧
    sampleDisabled.remove.state.index_ ≠ sampleDisabled.index_ ∧
    (sampleDisabled.removeFrom false false).isOk = false ∧
    (sampleDisabled.removeFrom true true).isOk = false := by
  decide

/-- C8, amended: where the preconditions of the loop's `removeChannel` hold (caller on
the loop's thread, no active events outstanding), `remove()` runs to completion exactly
when the interest mask is zero. With a non-zero mask the assertion aborts it before
anything has changed, wherever it is called; with a zero mask it clears the
added-to-loop flag, forwards one `removeChannel` to the owning loop (which then no
longer has the Channel), leaves the index as the loop's back-end sets it, and leaves
every other field unchanged. From another thread or with active events outstanding it
does not run to completion. -/
theorem remove_exactly_when_none (c : Channel σ) (inLoopThread activeEvents : Bool) :
    (c.remove.isOk = true ↔ c.events_ = 0) ∧
    ((c.removeFrom inLoopThread activeEvents).isOk = true ↔
      (c.events_ = 0 ∧ inLoopThread = true ∧ activeEvents = false)) ∧
    (c.events_ = 0 ∨ c.removeFrom inLoopThread activeEvents = Outcome.aborted c) ∧
    match c.remove with
    | Outcome.ok c' =>
        c'.addedToLoop_ = false ∧
        c'.loop_.calls = c.loop_.calls ++ [LoopCall.removeChannel] ∧
        c'.loop_.hasChannel = false ∧
        c'.index_ = c.loop_.demultiplexer.afterRemove c.index_ ∧
        c'.events_ = c.events_ ∧ c'.revents_ = c.revents_ ∧
        c'.tie_ = c.tie_ ∧ c'.tied_ = c.tied_ ∧
        c'.readCallback_ = c.readCallback_ ∧ c'.writeCallback_ = c.writeCallback_ ∧
        c'.closeCallback_ = c.closeCallback_ ∧ c'.errorCallback_ = c.errorCallback_ ∧
        c'.fd_ = c.fd_ ∧ c'.logHup_ = c.logHup_ ∧ c'.eventHandling_ = c.eventHandling_
    | Outcome.aborted c' => c' = c := by
  by_cases h : c.events_ = 0
  · refine ⟨?_, ?_, Or.inl h, ?_⟩
    · simp [remove, removeFrom_of_none c h, Outcome.isOk, h]
    · cases inLoopThread <;> cases activeEvents <;>
        simp [removeFrom, isNoneEvent, kNoneEvent, h, Outcome.isOk, EventLoop.removeChannel]
    · simp [remove, removeFrom_of_none c h, EventLoop.hasChannel, h]
  · refine ⟨?_, ?_, Or.inr (removeFrom_of_events c _ _ h), ?_⟩
    · simp [remove, removeFrom_of_events c _ _ h, Outcome.isOk, h]
    · simp [removeFrom_of_events c _ _ h, Outcome.isOk, h]
    · simp [remove, removeFrom_of_events c _ _ h]

end Channel

/-! ## HTTP request method -/

namespace HttpRequest

/-- C10: on a request whose method is still kInvalid, `setMethod(s)` returns true
exactly when `s` is one of GET, POST, HEAD, PUT, DELETE (whole string, case-sensitive);
then `method()` is the matching enumerator, otherwise it stays kInvalid; no other
field changes. -/
theorem setMethod_spec (r : HttpRequest) (s : String) (h : r.method_ = Method.kInvalid) :
    ∃ b r', r.setMethod s = Outcome.ok (b, r') ∧
      (b = true ↔ s ∈ ["GET", "POST", "HEAD", "PUT", "DELETE"]) ∧
      (s = "GET" → r'.method = Method.kGet) ∧
      (s = "POST" → r'.method = Method.kPost) ∧
      (s = "HEAD" → r'.method = Method.kHead) ∧
      (s = "PUT" → r'.method = Method.kPut) ∧
      (s = "DELETE" → r'.method = Method.kDelete) ∧
      (b = false → r'.method = Method.kInvalid) ∧
      r' = { r with method_ := r'.method } := by
  by_cases h1 : s = "GET"
  · subst h1
    exact ⟨true, { r with method_ := Method.kGet }, by simp [setMethod, h], by simp [method]⟩
  by_cases h2 : s = "POST"
  · subst h2
    exact ⟨true, { r with method_ := Method.kPost }, by simp [setMethod, h], by simp [method]⟩
  by_cases h3 : s = "HEAD"
  · subst h3
    exact ⟨true, { r with method_ := Method.kHead }, by simp [setMethod, h], by simp [method]⟩
  by_cases h4 : s = "PUT"
  · subst h4
    exact ⟨true, { r with method_ := Method.kPut }, by simp [setMethod, h], by simp [method]⟩
  by_cases h5 : s = "DELETE"
  · subst h5
    exact ⟨true, { r with method_ := Method.kDelete }, by simp [setMethod, h],
      by simp [method]⟩
  refine ⟨false, r, ?_, ?_⟩
  · obtain ⟨m, v, p, q, t, hs⟩ := r
    simp only at h
    subst h
    simp [setMethod, h1, h2, h3, h4, h5]
  · obtain ⟨m, v, p, q, t, hs⟩ := r
    simp only at h
    subst h
    simp [method, h1, h2, h3, h4, h5]

/-- C10 at samples: "PUT" is accepted on a fresh request, "get" is not. -/
theorem setMethod_spec_witness :
    HttpRequest.new.method_ = Method.kInvalid ∧
    HttpRequest.new.setMethod "PUT" =
      Outcome.ok (true, { HttpRequest.new with method_ := Method.kPut }) ∧
    HttpRequest.new.setMethod "get" = Outcome.ok (false, HttpRequest.new) ∧
    ∃ b r', HttpRequest.new.setMethod "get" = Outcome.ok (b, r') ∧
      (b = true ↔ "get" ∈ ["GET", "POST", "HEAD", "PUT", "DELETE"]) ∧
      ("get" = "GET" → r'.method = Method.kGet) ∧
      ("get" = "POST" → r'.method = Method.kPost) ∧
      ("get" = "HEAD" → r'.method = Method.kHead) ∧
      ("get" = "PUT" → r'.method = Method.kPut) ∧
      ("get" = "DELETE" → r'.method = Method.kDelete) ∧
      (b = false → r'.method = Method.kInvalid) ∧
      r' = { HttpRequest.new with method_ := r'.method } :=
  ⟨rfl, by simp [setMethod, HttpRequest.new], by simp [setMethod, HttpRequest.new],
    setMethod_spec HttpRequest.new "get" rfl⟩

end HttpRequest

/-! ## HTTP request headers -/

namespace HttpRequest

theorem mapFind_mapAssign_self (f v : String) (l : List (String × String)) :
    mapFind f (mapAssign f v l) = some v := by
  induction l with
  | nil => simp [mapAssign, mapFind]
  | cons e rest ih =>
    obtain ⟨k, w⟩ := e
    unfold mapAssign
    split
    · simp [mapFind]
    · split
      · rename_i h1 h2
        have hne : k ≠ f := ne_of_lt h2
        simp [mapFind, hne, ih]
      · rename_i h1 h2
        have hk : k = f := le_antisymm (not_lt.mp h1) (not_lt.mp h2)
        simp [mapFind, hk]

theorem mapFind_mapAssign_ne (f g v : String) (h : f ≠ g) (l : List (String × String)) :
    mapFind g (mapAssign f v l) = mapFind g l := by
  induction l with
  | nil => simp [mapAssign, mapFind, h]
  | cons e rest ih =>
    obtain ⟨k, w⟩ := e
    unfold mapAssign
    split
    · simp [mapFind, h]
    · split
      · by_cases hk : k = g
        · simp [mapFind, hk]
        · simp [mapFind, hk, ih]
      · rename_i h1 h2
        have hk : k = f := le_antisymm (not_lt.mp h1) (not_lt.mp h2)
        have hg : k ≠ g := hk ▸ h
        simp [mapFind, hg]

theorem mapAssign_mapAssign (f a b : String) (l : List (String × String)) :
    mapAssign f b (mapAssign f a l) = mapAssign f b l := by
  induction l with
  | nil => simp [mapAssign]
  | cons e rest ih =>
    obtain ⟨k, w⟩ := e
    by_cases h1 : f < k
    · simp [mapAssign, h1]
    · by_cases h2 : k < f
      · simp [mapAssign, h1, h2, ih]
      · simp [mapAssign, h1, h2]

theorem mapAssign_keys (f v : String) (l : List (String × String)) :
    ∀ e ∈ mapAssign f v l, e.1 = f ∨ ∃ e' ∈ l, e'.1 = e.1 := by
  induction l with
  | nil => simp [mapAssign]
  | cons e rest ih =>
    obtain ⟨k, w⟩ := e
    intro x hx
    by_cases h1 : f < k
    · simp only [mapAssign, h1, if_true, List.mem_cons] at hx
      rcases hx with rfl | rfl | hx
      · exact Or.inl rfl
      · exact Or.inr ⟨(k, w), List.mem_cons_self _ _, rfl⟩
      · exact Or.inr ⟨x, List.mem_cons_of_mem _ hx, rfl⟩
    · by_cases h2 : k < f
      · simp only [mapAssign, h1, h2, if_true, if_false, List.mem_cons] at hx
        rcases hx with rfl | hx
        · exact Or.inr ⟨(k, w), List.mem_cons_self _ _, rfl⟩
        · rcases ih x hx with h | ⟨e', he', hk⟩
          · exact Or.inl h
          · exact Or.inr ⟨e', List.mem_cons_of_mem _ he', hk⟩
      · simp only [mapAssign, h1, h2, if_false, List.mem_cons] at hx
        rcases hx with rfl | hx
        · exact Or.inr ⟨(k, w), List.mem_cons_self _ _, rfl⟩
        · exact Or.inr ⟨x, List.mem_cons_of_mem _ hx, rfl⟩

theorem mapOk_mapAssign (f v : String) (l : List (String × String)) (h : mapOk l) :
    mapOk (mapAssign f v l) := by
  induction l with
  | nil => simp [mapAssign, mapOk]
  | cons e rest ih =>
    obtain ⟨k, w⟩ := e
    have hrest : mapOk rest := (List.pairwise_cons.mp h).2
    have hk : ∀ e' ∈ rest, k < e'.1 := (List.pairwise_cons.mp h).1
    by_cases h1 : f < k
    · simp only [mapAssign, h1, if_true]
      refine List.pairwise_cons.mpr ⟨?_, h⟩
      intro x hx
      rcases List.mem_cons.mp hx with rfl | hx
      · exact h1
      · exact lt_trans h1 (hk x hx)
    · by_cases h2 : k < f
      · simp only [mapAssign, h1, h2, if_true, if_false]
        refine List.pairwise_cons.mpr ⟨?_, ih hrest⟩
        intro x hx
        rcases mapAssign_keys f v rest x hx with hx | ⟨e', he', hx⟩
        · rw [hx]
          exact h2
        · rw [← hx]
          exact hk e' he'
      · simp only [mapAssign, h1, h2, if_false]
        exact List.pairwise_cons.mpr ⟨hk, hrest⟩

theorem filter_key_nil (f : String) (l : List (String × String))
    (h : ∀ e ∈ l, f < e.1) : l.filter (fun e => e.1 == f) = [] := by
  rw [List.filter_eq_nil_iff]
  intro e he
  have := ne_of_gt (h e he)
  simpa using this

theorem entries_mapAssign (f v : String) (l : List (String × String)) (h : mapOk l) :
    (mapAssign f v l).filter (fun e => e.1 == f) = [(f, v)] := by
  induction l with
  | nil => simp [mapAssign]
  | cons e rest ih =>
    obtain ⟨k, w⟩ := e
    have hrest : mapOk rest := (List.pairwise_cons.mp h).2
    have hk : ∀ e' ∈ rest, k < e'.1 := (List.pairwise_cons.mp h).1
    by_cases h1 : f < k
    · have hall : ∀ e' ∈ (k, w) :: rest, f < e'.1 := by
        intro x hx
        rcases List.mem_cons.mp hx with rfl | hx
        · exact h1
        · exact lt_trans h1 (hk x hx)
      simp only [mapAssign, h1, if_true]
      rw [List.filter_cons_of_pos (by simp), filter_key_nil f _ hall]
    · by_cases h2 : k < f
      · have hne : (k == f) = false := by simpa using ne_of_lt h2
        simp [mapAssign, h1, h2, List.filter_cons, hne, ih hrest]
      · have hkf : k = f := le_antisymm (not_lt.mp h1) (not_lt.mp h2)
        subst hkf
        simp only [mapAssign, h1, if_false]
        rw [List.filter_cons_of_pos (by simp), filter_key_nil k _ hk]

/-- C11: the header map is last-write-wins. After `addHeader(f, v1)` and then
`addHeader(f, v2)` the map has exactly one entry for `f`, `getHeader(f)` is the trimmed
`v2`, and the map is the one obtained without the first call. -/
theorem addHeader_last_write_wins (r : HttpRequest) (f v1 v2 : String)
    (h : mapOk r.headers_) :
    (((r.addHeader f v1).addHeader f v2).entriesFor f).length = 1 ∧
    ((r.addHeader f v1).addHeader f v2).entriesFor f = [(f, trimValue v2)] ∧
    ((r.addHeader f v1).addHeader f v2).getHeader f = trimValue v2 ∧
    ((r.addHeader f v1).addHeader f v2).headers = (r.addHeader f v2).headers ∧
    mapOk ((r.addHeader f v1).addHeader f v2).headers_ := by
  have hok : mapOk (mapAssign f (trimValue v1) r.headers_) := mapOk_mapAssign _ _ _ h
  have he : ((r.addHeader f v1).addHeader f v2).entriesFor f = [(f, trimValue v2)] :=
    entries_mapAssign f (trimValue v2) _ hok
  refine ⟨by rw [he]; rfl, he, ?_, ?_, mapOk_mapAssign _ _ _ hok⟩
  · simp only [getHeader, addHeader, mapFind_mapAssign_self]
  · simp only [headers, addHeader, mapAssign_mapAssign]

/-- C11 at a sample: two values for "Host" on a fresh request. -/
theorem addHeader_last_write_wins_witness :
    mapOk HttpRequest.new.headers_ ∧
    ((HttpRequest.new.addHeader "Host" " a.example").addHeader "Host" " b.example \t").headers =
      [("Host", "b.example")] ∧
    ((HttpRequest.new.addHeader "Host" " a.example").addHeader "Host" " b.example \t").getHeader
      "Host" = trimValue " b.example \t" :=
  ⟨List.Pairwise.nil,
    by simp [headers, addHeader, mapAssign, HttpRequest.new, trimValue, isspace,
      List.rdropWhile],
    (addHeader_last_write_wins HttpRequest.new "Host" " a.example" " b.example \t"
      List.Pairwise.nil).2.2.1⟩

theorem rdropWhile_append_rtakeWhile (p : Char → Bool) (l : List Char) :
    l.rdropWhile p ++ l.rtakeWhile p = l := by
  simp only [List.rdropWhile, List.rtakeWhile, ← List.reverse_append,
    List.takeWhile_append_dropWhile, List.reverse_reverse]

theorem trimValue_head (raw : String) (c : Char)
    (h : (trimValue raw).data.head? = some c) : isspace c = false := by
  simp only [trimValue] at h
  obtain ⟨t, ht⟩ := List.rdropWhile_prefix isspace (l := raw.data.dropWhile isspace)
  have hne : raw.data.dropWhile isspace ≠ [] := by
    intro h0
    rw [h0, List.rdropWhile_nil] at h
    exact Option.noConfusion h
  have hh : (raw.data.dropWhile isspace).head? = some c := by
    rw [← ht, List.head?_append_of_ne_nil]
    · exact h
    · intro h0
      rw [h0] at h
      exact Option.noConfusion h
  have hnot := List.head_dropWhile_not isspace raw.data hne
  rw [List.head?_eq_head hne] at hh
  rw [Option.some.inj hh] at hnot
  exact hnot

theorem trimValue_getLast (raw : String) (c : Char)
    (h : (trimValue raw).data.getLast? = some c) : isspace c = false := by
  simp only [trimValue] at h
  have hne : (raw.data.dropWhile isspace).rdropWhile isspace ≠ [] := by
    intro h0
    rw [h0] at h
    exact Option.noConfusion h
  have hnot := List.rdropWhile_last_not isspace (raw.data.dropWhile isspace) hne
  rw [List.getLast?_eq_getLast _ hne] at h
  rw [Option.some.inj h] at hnot
  simpa using hnot

theorem head?_eq_get_zero (l : List Char) (hl : 0 < l.length) :
    l.head? = some (l.get ⟨0, hl⟩) := by
  cases l with
  | nil => exact absurd hl (Nat.lt_irrefl 0)
  | cons x xs => rfl

theorem trimValue_idempotent (raw : String) : trimValue (trimValue raw) = trimValue raw := by
  have hd : (trimValue raw).data.dropWhile isspace = (trimValue raw).data := by
    rw [List.dropWhile_eq_self_iff]
    intro hl
    rw [Bool.not_eq_true]
    exact trimValue_head raw _ (head?_eq_get_zero _ hl)
  show String.mk (((trimValue raw).data.dropWhile isspace).rdropWhile isspace) = trimValue raw
  rw [hd]
  show String.mk (((raw.data.dropWhile isspace).rdropWhile isspace).rdropWhile isspace) = _
  rw [List.rdropWhile_idempotent]
  rfl

/-- C12: `addHeader` stores under `field` the raw value without its leading and
trailing whitespace runs: the raw value is whitespace, then the stored value, then
whitespace; the stored value neither starts nor ends with whitespace; a raw value of
whitespace only (or empty) is stored as the empty string; trimming is idempotent. -/
theorem addHeader_trims (r : HttpRequest) (field raw : String) :
    (r.addHeader field raw).getHeader field = trimValue raw ∧
    (∃ pre post : List Char, raw.data = pre ++ (trimValue raw).data ++ post ∧
      (∀ c ∈ pre, isspace c = true) ∧ (∀ c ∈ post, isspace c = true)) ∧
    (∀ c, (trimValue raw).data.head? = some c → isspace c = false) ∧
    (∀ c, (trimValue raw).data.getLast? = some c → isspace c = false) ∧
    ((∀ c ∈ raw.data, isspace c = true) → trimValue raw = "") ∧
    trimValue (trimValue raw) = trimValue raw := by
  refine ⟨?_, ?_, trimValue_head raw, trimValue_getLast raw, ?_, trimValue_idempotent raw⟩
  · simp only [getHeader, addHeader, mapFind_mapAssign_self]
  · refine ⟨raw.data.takeWhile isspace, (raw.data.dropWhile isspace).rtakeWhile isspace,
      ?_, fun c hc => List.mem_takeWhile_imp hc, fun c hc => List.mem_rtakeWhile_imp hc⟩
    show raw.data = _ ++ (raw.data.dropWhile isspace).rdropWhile isspace ++ _
    rw [List.append_assoc, rdropWhile_append_rtakeWhile, List.takeWhile_append_dropWhile]
  · intro hall
    have h0 : raw.data.dropWhile isspace = [] := List.dropWhile_eq_nil_iff.mpr hall
    show String.mk ((raw.data.dropWhile isspace).rdropWhile isspace) = ""
    rw [h0, List.rdropWhile_nil]

/-- C13: header lookup is by exact field name. `addHeader(f, v)` leaves `getHeader(g)`
unchanged for every `g` other than `f`, and `getHeader(g)` is the empty string on a
request to which only other fields were added. -/
theorem addHeader_other_field (r : HttpRequest) (f g v : String)
    (added : List (String × String)) (h : f ≠ g) (hn : ∀ e ∈ added, e.1 ≠ g) :
    (r.addHeader f v).getHeader g = r.getHeader g ∧
    (added.foldl (fun q e => q.addHeader e.1 e.2) HttpRequest.new).getHeader g = "" := by
  constructor
  · simp only [getHeader, addHeader, mapFind_mapAssign_ne f g _ h]
  · have key : ∀ (l : List (String × String)) (q : HttpRequest),
        (∀ e ∈ l, e.1 ≠ g) → q.getHeader g = "" →
        (l.foldl (fun q e => q.addHeader e.1 e.2) q).getHeader g = "" := by
      intro l
      induction l with
      | nil => intro q _ hq; exact hq
      | cons e rest ih =>
        intro q hl hq
        apply ih
        · exact fun x hx => hl x (List.mem_cons_of_mem _ hx)
        · simp only [getHeader, addHeader,
            mapFind_mapAssign_ne e.1 g _ (hl e (List.mem_cons_self _ _))]
          exact hq
    exact key added HttpRequest.new hn rfl

/-- C13 at a sample: "host" and "Host " are not the field "Host". -/
theorem addHeader_other_field_witness :
    "host" ≠ "Host" ∧ (∀ e ∈ [("host", "a"), ("Host ", "b")], e.1 ≠ "Host") ∧
    ((HttpRequest.new.addHeader "Host" "x").addHeader "host" "y").getHeader "Host" =
      (HttpRequest.new.addHeader "Host" "x").getHeader "Host" ∧
    ([("host", "a"), ("Host ", "b")].foldl (fun q e => q.addHeader e.1 e.2)
      HttpRequest.new).getHeader "Host" = "" :=
  ⟨by decide, by decide,
    addHeader_other_field (HttpRequest.new.addHeader "Host" "x") "host" "Host" "y"
      [("host", "a"), ("Host ", "b")] (by decide) (by decide)⟩

end HttpRequest

end net

/-! ## Timestamp -/

namespace Timestamp

/-- C14: Timestamps are totally ordered by their microsecond count: exactly one of
`a < b`, `a == b`, `b < a` holds; `<` is transitive and irreflexive; `==` is equality
of the counts and `<` is `<` of the counts. -/
theorem lt_total_order (a b c : Timestamp) :
    ((lt a b = true ∧ eq a b = false ∧ lt b a = false) ∨
      (lt a b = false ∧ eq a b = true ∧ lt b a = false) ∨
      (lt a b = false ∧ eq a b = false ∧ lt b a = true)) ∧
    (lt a b = true → lt b c = true → lt a c = true) ∧
    lt a a = false ∧
    (eq a b = true ↔ a.microSecondsSinceEpoch = b.microSecondsSinceEpoch) ∧
    (lt a b = true ↔ a.microSecondsSinceEpoch < b.microSecondsSinceEpoch) := by
  refine ⟨?_, ?_, by simp [lt], by simp [eq], by simp [lt]⟩
  · simp only [lt, eq, decide_eq_true_eq, decide_eq_false_iff_not, beq_iff_eq,
      beq_eq_false_iff_ne, ne_eq]
    rcases lt_trichotomy a.microSecondsSinceEpoch b.microSecondsSinceEpoch with h | h | h
    · exact Or.inl ⟨h, ne_of_lt h, not_lt.mpr (le_of_lt h)⟩
    · exact Or.inr (Or.inl ⟨not_lt.mpr (le_of_eq h.symm), h, not_lt.mpr (le_of_eq h)⟩)
    · exact Or.inr (Or.inr ⟨not_lt.mpr (le_of_lt h), ne_of_gt h, h⟩)
  · simp only [lt, decide_eq_true_eq]
    exact fun h1 h2 => lt_trans h1 h2

/-- C15: the invalid sentinel is the zero timestamp. `Timestamp::invalid()` and the
default-constructed Timestamp have count 0 and are not valid; a Timestamp is valid
exactly when its count is positive, so one made from a positive count is valid and
differs from the sentinel. -/
theorem valid_iff_positive (t : Timestamp) (n : Int) :
    invalid.microSecondsSinceEpoch = 0 ∧ Timestamp.new.microSecondsSinceEpoch = 0 ∧
    invalid.valid = false ∧ Timestamp.new.valid = false ∧
    (t.valid = true ↔ 0 < t.microSecondsSinceEpoch) ∧
    (0 < n → (ofMicroSeconds n).valid = true ∧ eq (ofMicroSeconds n) invalid = false ∧
      ofMicroSeconds n ≠ invalid) := by
  refine ⟨rfl, rfl, rfl, rfl, ?_, ?_⟩
  · simp [valid, microSecondsSinceEpoch]
  · intro hn
    refine ⟨?_, ?_, ?_⟩
    · simp [valid, ofMicroSeconds, hn]
    · simp [eq, ofMicroSeconds, invalid, Timestamp.new, microSecondsSinceEpoch]
      omega
    · intro h
      have := congrArg Timestamp.microSecondsSinceEpoch_ h
      simp [ofMicroSeconds, invalid, Timestamp.new] at this
      omega

end Timestamp

/-- C17: a MutexLock tracks its holder. When thread `T` (tid not 0) locks a free
mutex, directly or through a MutexLockGuard, `isLockedByThisThread()` is true on `T`
and false on every thread with another tid; after the matching unlock the holder is 0
and `isLockedByThisThread()` is false on `T` and on every thread with a tid other
than 0; a fresh MutexLock has holder 0. -/
theorem MutexLock.tracks_holder (m : MutexLock) (T U : Int) (hT : T ≠ 0)
    (hfree : m.mutex_ = false) :
    ∃ m', m.lock T = some m' ∧ MutexLockGuard.new m T = some m' ∧
      m'.isLockedByThisThread T = true ∧
      (U ≠ T → m'.isLockedByThisThread U = false) ∧
      m'.unlock.holder_ = 0 ∧ (MutexLockGuard.destroy m').holder_ = 0 ∧
      m'.unlock.isLockedByThisThread T = false ∧
      (U ≠ 0 → m'.unlock.isLockedByThisThread U = false) ∧
      MutexLock.new.holder_ = 0 := by
  refine ⟨MutexLock.assignHolder { m with mutex_ := true } T, ?_, ?_, ?_, ?_, rfl, rfl, ?_,
    ?_, rfl⟩
  · simp [MutexLock.lock, hfree]
  · simp [MutexLockGuard.new, MutexLock.lock, hfree]
  · simp [MutexLock.isLockedByThisThread, MutexLock.assignHolder]
  · intro hU
    simpa [MutexLock.isLockedByThisThread, MutexLock.assignHolder] using fun h => hU h.symm
  · simpa [MutexLock.isLockedByThisThread, MutexLock.unlock, MutexLock.unassignHolder]
      using fun h => hT h.symm
  · intro hU
    simpa [MutexLock.isLockedByThisThread, MutexLock.unlock, MutexLock.unassignHolder]
      using fun h => hU h.symm

/-- C17 at a sample: thread 4242 locks a fresh mutex, thread 4243 looks at it. -/
theorem MutexLock.tracks_holder_witness :
    (4242 : Int) ≠ 0 ∧ MutexLock.new.mutex_ = false ∧
    ∃ m', MutexLock.new.lock 4242 = some m' ∧ MutexLockGuard.new MutexLock.new 4242 = some m' ∧
      m'.isLockedByThisThread 4242 = true ∧
      ((4243 : Int) ≠ 4242 → m'.isLockedByThisThread 4243 = false) ∧
      m'.unlock.holder_ = 0 ∧ (MutexLockGuard.destroy m').holder_ = 0 ∧
      m'.unlock.isLockedByThisThread 4242 = false ∧
      ((4243 : Int) ≠ 0 → m'.unlock.isLockedByThisThread 4243 = false) ∧
      MutexLock.new.holder_ = 0 :=
  ⟨by decide, rfl, MutexLock.tracks_holder MutexLock.new 4242 4243 (by decide) rfl⟩

/-- C18: both definitions of `MCHECK(e)` evaluate `e` exactly once. With `e`
instrumented by an evaluation counter, the counter has advanced by one after
`MCHECK(e)`; execution continues in the state left by `e` when `e` returned 0, and
the check fails when `e` returned another value. -/
theorem MCHECK_evaluates_once {σ : Type} (e : IntExpr σ) (s : σ) (k : Nat) :
    MCHECK_perror (counted e) (s, k) =
      (if (e s).1 = 0 then net.Outcome.ok ((e s).2, k + 1)
        else net.Outcome.aborted ((e s).2, k + 1)) ∧
    MCHECK_assert (counted e) (s, k) =
      (if (e s).1 = 0 then net.Outcome.ok ((e s).2, k + 1)
        else net.Outcome.aborted ((e s).2, k + 1)) := by
  by_cases h : (e s).1 = 0 <;> simp [MCHECK_perror, MCHECK_assert, counted, h]

/-! ## Thread lifecycle -/

namespace Thread

variable {φ : Type}

theorem joined_imp_started (t : Thread φ) (h : Reachable t) :
    t.joined_ = true → t.started_ = true := by
  induction h with
  | constructed func n numCreated =>
    intro hj
    simp only [Thread.new, setDefaultName] at hj
    split at hj <;> simp at hj
  | started t t' created _ hs ih =>
    intro _
    unfold start at hs
    split at hs
    · exact net.Outcome.noConfusion hs
    · split at hs
      · exact net.Outcome.noConfusion hs
      · split at hs
        · rw [← net.Outcome.ok.inj hs]
        · exact net.Outcome.noConfusion hs
  | joined t t' joinResult ret _ hj ih =>
    intro _
    unfold join at hj
    split at hj
    · exact net.Outcome.noConfusion hj
    · split at hj
      · exact net.Outcome.noConfusion hj
      · rename_i h1 h2
        have := (Prod.mk.inj (net.Outcome.ok.inj hj)).2
        rw [← this]
        simpa using h1

/-- C19: misuse of the Thread lifecycle is fatal. `join()` on a Thread that is not
started aborts with the Thread unchanged; `join()` on a started, not yet joined Thread
marks it joined and returns the result of `pthread_join`; a second `join()` aborts;
`start()` on a started Thread aborts with the Thread unchanged; and in every
reachable state joined implies started. -/
theorem lifecycle_misuse_fatal (t : Thread φ) (created : Option (Nat × Int))
    (joinResult again : Int) :
    (t.started_ = false →
      (t.join joinResult).isOk = false ∧ (t.join joinResult).state.2 = t) ∧
    (t.started_ = true → t.joined_ = false →
      t.join joinResult = net.Outcome.ok (joinResult, { t with joined_ := true }) ∧
      (({ t with joined_ := true } : Thread φ).join again).isOk = false ∧
      (({ t with joined_ := true } : Thread φ).join again).state.2 =
        { t with joined_ := true }) ∧
    (t.started_ = true →
      (t.start created).isOk = false ∧ (t.start created).state = t) ∧
    (Reachable t → t.joined_ = true → t.started_ = true) := by
  refine ⟨?_, ?_, ?_, joined_imp_started t⟩
  · intro h
    simp [join, h, net.Outcome.isOk, net.Outcome.state]
  · intro h1 h2
    simp [join, h1, h2, net.Outcome.isOk, net.Outcome.state]
  · intro h
    simp [start, h, net.Outcome.isOk, net.Outcome.state]

end Thread

namespace net

/-! ## Timer -/

theorem Double.zero_lt_iff (d : Double) :
    Double.lt (Double.ofInt 0) d = true ↔ 0 < d.toRat := by
  have h0 : Double.ofInt 0 = ⟨0, 0⟩ := rfl
  have hp : (0 : ℚ) < 2 ^ d.expo := zpow_pos (by norm_num) _
  rw [h0]
  simp only [Double.lt, Double.toRat, decide_eq_true_eq, zero_mul]
  rw [mul_pos_iff_of_pos_right hp, Int.cast_pos]
  exact mul_pos_iff_of_pos_right (pow_pos (by norm_num) _)

/-- C20: a Timer constructed as `Timer(cb, when, interval)` reports `expiration()`
equal to `when`, and `repeat()` is true exactly when `interval > 0`; an interval of 0
makes it one-shot. -/
theorem Timer.new_expiration_repeat {φ : Type} (cb : φ) (when : Timestamp)
    (interval : Double) (numCreated : Int) :
    (Timer.new cb when interval numCreated).1.expiration = when ∧
    Timestamp.eq (Timer.new cb when interval numCreated).1.expiration when = true ∧
    ((Timer.new cb when interval numCreated).1.repeat = true ↔ 0 < interval.toRat) ∧
    (Timer.new cb when (Double.ofInt 0) numCreated).1.repeat = false ∧
    (Timer.new cb when (Double.ofInt 1) numCreated).1.repeat = true := by
  refine ⟨rfl, by simp [Timer.new, Timer.expiration, Timestamp.eq], ?_, ?_, ?_⟩
  · exact Double.zero_lt_iff interval
  · show Double.lt (Double.ofInt 0) (Double.ofInt 0) = false
    decide
  · show Double.lt (Double.ofInt 0) (Double.ofInt 1) = true
    decide

/-- C21: Timer sequence ids are allocated strictly increasingly and never reused. The
first Timer of a process (counter 0) has `sequence()` 1; Timers constructed one after
the other get consecutive ids, so a later Timer has a strictly greater id than every
earlier one and no two Timers share an id. -/
theorem Timer.sequence_strictly_increasing {φ : Type} (cb : φ) (when : Timestamp)
    (interval : Double) (reqs : List (φ × Timestamp × Double)) (numCreated : Int) :
    (Timer.new cb when interval 0).1.sequence = 1 ∧
    (Timer.new cb when interval numCreated).1.sequence <
      (Timer.new cb when interval (Timer.new cb when interval numCreated).2).1.sequence ∧
    (Timer.createAll reqs numCreated).1.map Timer.sequence =
      (List.range reqs.length).map (fun i : Nat => numCreated + 1 + (i : Int)) ∧
    ((Timer.createAll reqs numCreated).1.map Timer.sequence).Pairwise (fun a b => a < b) ∧
    ((Timer.createAll reqs numCreated).1.map Timer.sequence).Nodup := by
  have hseq : ∀ (l : List (φ × Timestamp × Double)) (n : Int),
      (Timer.createAll l n).1.map Timer.sequence =
        (List.range l.length).map (fun i : Nat => n + 1 + (i : Int)) := by
    intro l
    induction l with
    | nil => intro n; rfl
    | cons r rest ih =>
      intro n
      simp only [Timer.createAll, List.map_cons, List.length_cons, List.range_succ_eq_map,
        List.map_map]
      rw [ih]
      simp only [Timer.new, Timer.sequence, List.map_map]
      refine congrArg₂ _ (by simp) (List.map_congr_left ?_)
      intro i _
      simp only [Function.comp]
      push_cast
      ring
  have hpair : ((List.range reqs.length).map (fun i : Nat => numCreated + 1 + (i : Int))).Pairwise
      (fun a b => a < b) := by
    rw [List.pairwise_map]
    refine List.Pairwise.imp ?_ (List.pairwise_lt_range _)
    intro a b hab
    have : (a : Int) < b := by exact_mod_cast hab
    omega
  refine ⟨rfl, ?_, hseq reqs numCreated, ?_, ?_⟩
  · simp only [Timer.new, Timer.sequence]
    omega
  · rw [hseq]
    exact hpair
  · rw [hseq]
    exact hpair.imp (fun h => ne_of_lt h)

/-! ## Tying, event rendering, method names -/

namespace Channel

variable {σ : Type}

/-- C24: tying does not change dispatch while the anchor lives. `handleEvent` on a
Channel tied to a living anchor leaves the same world (invocations with their order
and arguments, callback effects, log lines) as on the same Channel with `tied_` false,
and the same final Channel up to the `tied_` flag in which the two Channels differ. -/
theorem handleEvent_tied_alive (c : Channel σ) (T : Timestamp) (w : World σ)
    (ht : c.tied_ = true) (ha : c.tie_.lock = true) :
    (c.handleEvent T w).2 = (({ c with tied_ := false } : Channel σ).handleEvent T w).2 ∧
    invoked c T w = invoked ({ c with tied_ := false } : Channel σ) T w ∧
    (c.handleEvent T w).1 =
      { (({ c with tied_ := false } : Channel σ).handleEvent T w).1 with tied_ := true } ∧
    (c.handleEvent T w).1.eventHandling_ = false := by
  have h1 : c.handleEvent T w = c.handleEventWithGuard T w :=
    handleEvent_of_dispatches c T w (Or.inr ha)
  have h2 : ({ c with tied_ := false } : Channel σ).handleEvent T w =
      ({ c with tied_ := false } : Channel σ).handleEventWithGuard T w :=
    handleEvent_of_dispatches _ T w (Or.inl rfl)
  have h3 : (c.handleEventWithGuard T w).2 =
      (({ c with tied_ := false } : Channel σ).handleEventWithGuard T w).2 := rfl
  refine ⟨?_, ?_, ?_, ?_⟩
  · rw [h1, h2, h3]
  · unfold invoked
    rw [h1, h2, h3]
  · rw [h1, h2, guard_channel, guard_channel]
    obtain ⟨loop, fd, ev, rev, idx, lh, tie, tied, eh, atl, rc, wc, cc, ec⟩ := c
    simp only at ht
    subst ht
    rfl
  · rw [h1, guard_channel]

/-- C24 at a sample: a Channel tied to a living anchor, readable and writable. -/
theorem handleEvent_tied_alive_witness :
    ((sampleChannel (POLLIN ||| POLLOUT)).tie SharedPtr.owning).tied_ = true ∧
    ((sampleChannel (POLLIN ||| POLLOUT)).tie SharedPtr.owning).tie_.lock = true ∧
    invoked ((sampleChannel (POLLIN ||| POLLOUT)).tie SharedPtr.owning) sampleTime sampleWorld =
      invoked ({ (sampleChannel (POLLIN ||| POLLOUT)).tie SharedPtr.owning with
        tied_ := false } : Channel (List Slot)) sampleTime sampleWorld ∧
    invokedSlots ((sampleChannel (POLLIN ||| POLLOUT)).tie SharedPtr.owning) sampleTime
      sampleWorld = [Slot.read, Slot.write] :=
  ⟨rfl, rfl,
    (handleEvent_tied_alive ((sampleChannel (POLLIN ||| POLLOUT)).tie SharedPtr.owning)
      sampleTime sampleWorld rfl rfl).2.1,
    by decide⟩

end Channel

namespace HttpRequest

/-- C28: method names round-trip. On a request whose method is still kInvalid,
`setMethod(s)` returning true leaves `methodString()` equal to `s`, and returning false
leaves it "UNKNOWN", as on a fresh request; `methodString` takes five different values
on the five valid methods. -/
theorem setMethod_methodString (r : HttpRequest) (s : String)
    (h : r.method_ = Method.kInvalid) :
    (∃ b r', r.setMethod s = Outcome.ok (b, r') ∧
      (b = true → r'.methodString = s) ∧ (b = false → r'.methodString = "UNKNOWN")) ∧
    r.methodString = "UNKNOWN" ∧ HttpRequest.new.methodString = "UNKNOWN" ∧
    (∀ q q' : HttpRequest, q.method_ ≠ Method.kInvalid →
      q.methodString = q'.methodString → q.method_ = q'.method_) := by
  refine ⟨?_, by simp [methodString, h], rfl, ?_⟩
  · by_cases h1 : s = "GET"
    · subst h1
      exact ⟨true, { r with method_ := Method.kGet }, by simp [setMethod, h],
        by simp [methodString]⟩
    by_cases h2 : s = "POST"
    · subst h2
      exact ⟨true, { r with method_ := Method.kPost }, by simp [setMethod, h],
        by simp [methodString]⟩
    by_cases h3 : s = "HEAD"
    · subst h3
      exact ⟨true, { r with method_ := Method.kHead }, by simp [setMethod, h],
        by simp [methodString]⟩
    by_cases h4 : s = "PUT"
    · subst h4
      exact ⟨true, { r with method_ := Method.kPut }, by simp [setMethod, h],
        by simp [methodString]⟩
    by_cases h5 : s = "DELETE"
    · subst h5
      exact ⟨true, { r with method_ := Method.kDelete }, by simp [setMethod, h],
        by simp [methodString]⟩
    refine ⟨false, r, ?_, by simp, by simp [methodString, h]⟩
    obtain ⟨m, v, p, q, t, hs⟩ := r
    simp only at h
    subst h
    simp [setMethod, h1, h2, h3, h4, h5]
  · intro q q' hq he
    cases hm : q.method_ <;> cases hm' : q'.method_ <;>
      simp [methodString, hm, hm'] at he hq ⊢

/-- C28 at samples: "DELETE" round-trips on a fresh request, "delete" gives "UNKNOWN". -/
theorem setMethod_methodString_witness :
    HttpRequest.new.method_ = Method.kInvalid ∧
    (∃ b r', HttpRequest.new.setMethod "DELETE" = Outcome.ok (b, r') ∧
      (b = true → r'.methodString = "DELETE") ∧ (b = false → r'.methodString = "UNKNOWN")) ∧
    HttpRequest.new.setMethod "DELETE" =
      Outcome.ok (true, { HttpRequest.new with method_ := Method.kDelete }) ∧
    HttpRequest.new.setMethod "delete" = Outcome.ok (false, HttpRequest.new) :=
  ⟨rfl, (setMethod_methodString HttpRequest.new "DELETE" rfl).1,
    by simp [setMethod, HttpRequest.new], by simp [setMethod, HttpRequest.new]⟩

end HttpRequest

namespace Channel

variable {σ : Type}

theorem isSet_and_decoded (ev i : Nat) (h : decodedBits &&& 2 ^ i = 2 ^ i) :
    isSet (ev &&& decodedBits) (2 ^ i) = isSet ev (2 ^ i) := by
  unfold isSet
  rw [Nat.and_assoc, h]

theorem eventsToStringOf_eq_render (fd : Int) (ev : Nat) :
    eventsToStringOf fd ev = renderEvents fd ev := by
  simp only [eventsToStringOf, renderEvents, eventTokens, test_POLLIN, test_POLLPRI,
    test_POLLOUT, test_POLLHUP, test_POLLRDHUP, test_POLLERR, test_POLLNVAL,
    List.filter_cons, List.filter_nil]
  generalize (ToString.toString fd ++ ": ") = s
  generalize isSet ev POLLIN = b1
  generalize isSet ev POLLPRI = b2
  generalize isSet ev POLLOUT = b3
  generalize isSet ev POLLHUP = b4
  generalize isSet ev POLLRDHUP = b5
  generalize isSet ev POLLERR = b6
  generalize isSet ev POLLNVAL = b7
  apply String.ext
  cases b1 <;> cases b2 <;> cases b3 <;> cases b4 <;> cases b5 <;> cases b6 <;> cases b7 <;>
    simp [String.join, String.data_append]

/-- C27: the decoded event mask is a fixed-order rendering. `eventsToString(fd, ev)` is
the decimal fd, `": "`, then the tokens "IN ", "PRI ", "OUT ", "HUP ", "RDHUP ", "ERR ",
"NVAL " of the bits set in `ev`, in this order; bits other than these seven do not
change it; `reventsToString()` and `eventsToString()` apply it to the Channel's fd
with `revents_` and `events_`; for fd -1 and the mask 0x2011 the text is
"-1: IN HUP RDHUP ". -/
theorem eventsToString_rendering (c : Channel σ) (fd : Int) (ev : Nat) :
    eventsToStringOf fd ev = renderEvents fd ev ∧
    eventsToStringOf fd ev = eventsToStringOf fd (ev &&& decodedBits) ∧
    c.reventsToString = renderEvents c.fd_ c.revents_ ∧
    c.eventsToString = renderEvents c.fd_ c.events_ ∧
    eventsToStringOf (-1) 0x2011 = "-1: IN HUP RDHUP " := by
  refine ⟨eventsToStringOf_eq_render fd ev, ?_, eventsToStringOf_eq_render _ _,
    eventsToStringOf_eq_render _ _, by decide⟩
  rw [eventsToStringOf_eq_render, eventsToStringOf_eq_render]
  simp only [renderEvents, eventTokens, List.filter_cons, List.filter_nil]
  rw [show POLLIN = 2 ^ 0 from rfl, show POLLPRI = 2 ^ 1 from rfl, show POLLOUT = 2 ^ 2 from rfl,
    show POLLHUP = 2 ^ 4 from rfl, show POLLRDHUP = 2 ^ 13 from rfl,
    show POLLERR = 2 ^ 3 from rfl, show POLLNVAL = 2 ^ 5 from rfl,
    isSet_and_decoded ev 0 (by decide), isSet_and_decoded ev 1 (by decide),
    isSet_and_decoded ev 2 (by decide), isSet_and_decoded ev 3 (by decide),
    isSet_and_decoded ev 4 (by decide), isSet_and_decoded ev 5 (by decide),
    isSet_and_decoded ev 13 (by decide)]

end Channel

end net

/-! ## CurrentThread and ThreadData -/

theorem padLeft_length (c : Char) (width : Nat) (s : String) :
    (padLeft c width s).length = max width s.length := by
  simp only [padLeft, String.length, List.length_append, List.length_replicate]
  omega

theorem snprintfBuf_of_short (size : Nat) (s : String) (h : s.length ≤ size - 1) :
    snprintfBuf size s = s := by
  simp only [snprintfBuf]
  rw [List.take_of_length_le h]

theorem printfD_length_of_pos (n : Int) (e : Nat) (he : 0 < e) (h0 : 0 ≤ n)
    (h : n < 10 ^ e) : (printfD n).length ≤ e := by
  obtain ⟨m, rfl⟩ := Int.eq_ofNat_of_zero_le h0
  have hm : m < 10 ^ e := by exact_mod_cast h
  exact Nat.repr_length m e he hm

namespace CurrentThread

/-- C26: the tid is cached lazily and then fixed. On a thread whose cached tid is 0,
the first `tid()` makes one `gettid` call, returns and stores its result, and sets
`tidString` to the id formatted with `"%5d "` and `tidStringLength` to the length of
that text; a later `tid()` returns the stored value and leaves the thread-local
variables and the number of `gettid` calls unchanged, as does `cacheTid()`;
`afterFork` clears the cache and caches the id of the child. -/
theorem tid_cached_once (s : CurrentThread) (k k' : Kernel) (h0 : s.t_cachedTid = 0)
    (hpos : 0 < k.tid) (hint : k.tid < 2 ^ 31) (hpos' : 0 < k'.tid) :
    (tid s k).1 = k.tid ∧ (tid s k).2.1.t_cachedTid = k.tid ∧
    (tid s k).2.2.gettidCalls = k.gettidCalls + 1 ∧
    (tid s k).2.1.tidString = printfD5 k.tid ++ " " ∧
    (tid s k).2.1.tidStringLength = ((printfD5 k.tid ++ " ").length : Int) ∧
    ((printfD5 k.tid ++ " ").length = max 5 (printfD k.tid).length + 1) ∧
    tid (tid s k).2.1 (tid s k).2.2 = (k.tid, (tid s k).2.1, (tid s k).2.2) ∧
    cacheTid (tid s k).2.1 (tid s k).2.2 = ((tid s k).2.1, (tid s k).2.2) ∧
    (afterFork (tid s k).2.1 k').1.t_cachedTid = k'.tid ∧
    (afterFork (tid s k).2.1 k').2.gettidCalls = k'.gettidCalls + 1 := by
  have hne : k.tid ≠ 0 := ne_of_gt hpos
  have hne' : k'.tid ≠ 0 := ne_of_gt hpos'
  have hlen : (printfD5 k.tid ++ " ").length = max 5 (printfD k.tid).length + 1 := by
    rw [String.length_append, printfD5, padLeft_length]
    rfl
  have hshort : (printfD5 k.tid ++ " ").length ≤ 32 - 1 := by
    have := printfD_length_of_pos k.tid 10 (by decide) (le_of_lt hpos)
      (lt_trans hint (by norm_num))
    rw [hlen]
    omega
  have hs : tid s k = (k.tid,
      { s with
        t_cachedTid := k.tid
        t_tidString := printfD5 k.tid ++ " "
        t_tidStringLength := ((printfD5 k.tid ++ " ").length : Int) },
      { k with gettidCalls := k.gettidCalls + 1 }) := by
    simp [tid, cacheTid, gettid, h0, snprintfBuf_of_short _ _ hshort]
  rw [hs]
  refine ⟨rfl, rfl, rfl, rfl, rfl, hlen, ?_, ?_, ?_, ?_⟩
  · simp [tid, hne]
  · simp [cacheTid, hne]
  · simp [afterFork, tid, cacheTid, gettid]
  · simp [afterFork, tid, cacheTid, gettid]

/-- C26 at a sample: a fresh thread with kernel tid 4243. -/
theorem tid_cached_once_witness :
    CurrentThread.initial.t_cachedTid = 0 ∧ (0 : Int) < 4243 ∧ (4243 : Int) < 2 ^ 31 ∧
    (tid CurrentThread.initial { tid := 4243, gettidCalls := 0 }).1 = 4243 ∧
    (tid CurrentThread.initial { tid := 4243, gettidCalls := 0 }).2.1.tidString = " 4243 " ∧
    (tid CurrentThread.initial { tid := 4243, gettidCalls := 0 }).2.1.tidStringLength = 6 ∧
    (tid (tid CurrentThread.initial { tid := 4243, gettidCalls := 0 }).2.1
      (tid CurrentThread.initial { tid := 4243, gettidCalls := 0 }).2.2).2.2.gettidCalls = 1 :=
  ⟨rfl, by decide, by decide,
    (tid_cached_once CurrentThread.initial { tid := 4243, gettidCalls := 0 }
      { tid := 4244, gettidCalls := 0 } rfl (by decide) (by decide) (by decide)).1,
    by decide, by decide, by decide⟩

end CurrentThread

namespace ThreadData

variable {σ : Type}

/-- C25, refuted as stated: when the thread function throws a value that is neither a
`muduo::Exception` nor a `std::exception`, `runInThread` names the thread "crashed"
and writes one line without a reason, then rethrows: it does not abort. -/
theorem runInThread_unknown_counterexample :
    ((sampleThreadData (some Thrown.other)).runInThread sampleThreadWorld).1 =
      Exit.rethrown Thrown.other ∧
    ((sampleThreadData (some Thrown.other)).runInThread sampleThreadWorld).1 ≠ Exit.aborted ∧
    ((sampleThreadData (some Thrown.other)).runInThread sampleThreadWorld).2.2.stderr =
      ["unknown exception caught in Thread worker\n"] := by
  decide

/-- C25, amended: a `muduo::Exception` or `std::exception` thrown by the thread
function is caught, the thread is named "crashed", the Thread's name and the reason
(and, for a `muduo::Exception`, the stack trace) are written to stderr and the process
is aborted; any other thrown value also names the thread "crashed" and writes the
Thread's name, without a reason, and is rethrown; a function that returns names the
thread "finished", writes nothing, and `runInThread` returns. -/
theorem runInThread_endings (d : ThreadData σ) (w : ThreadWorld σ) :
    match (d.func_ w.env).1 with
    | none =>
      (d.runInThread w).1 = Exit.returned ∧
      (d.runInThread w).2.2.current.t_threadName = "finished" ∧
      (d.runInThread w).2.2.stderr = w.stderr
    | some (Thrown.exception what stackTrace) =>
      (d.runInThread w).1 = Exit.aborted ∧
      (d.runInThread w).2.2.current.t_threadName = "crashed" ∧
      (d.runInThread w).2.2.stderr = w.stderr ++
        ["exception caught in Thread " ++ d.name_ ++ "\n", "reason: " ++ what ++ "\n",
          "stack trace: " ++ stackTrace ++ "\n"]
    | some (Thrown.stdException what) =>
      (d.runInThread w).1 = Exit.aborted ∧
      (d.runInThread w).2.2.current.t_threadName = "crashed" ∧
      (d.runInThread w).2.2.stderr = w.stderr ++
        ["exception caught in Thread " ++ d.name_ ++ "\n", "reason: " ++ what ++ "\n"]
    | some Thrown.other =>
      (d.runInThread w).1 = Exit.rethrown Thrown.other ∧
      (d.runInThread w).2.2.current.t_threadName = "crashed" ∧
      (d.runInThread w).2.2.stderr = w.stderr ++
        ["unknown exception caught in Thread " ++ d.name_ ++ "\n"] := by
  unfold runInThread
  cases h : (d.func_ w.env).1 with
  | none => simp [h]
  | some t =>
    cases t with
    | exception what stackTrace => simp [h]
    | stdException what => simp [h]
    | other => simp [h]

end ThreadData

/-! ## Rounding bounds -/

theorem log2Fuel_bounds : ∀ (fuel n : Nat), n ≤ fuel → 0 < n →
    2 ^ log2Fuel fuel n ≤ n ∧ n < 2 ^ (log2Fuel fuel n + 1) := by
  intro fuel
  induction fuel with
  | zero =>
    intro n h1 h2
    omega
  | succ fuel ih =>
    intro n h1 h2
    by_cases hn : n < 2
    · have : n = 1 := by omega
      subst this
      simp [log2Fuel]
    · have h := ih (n / 2) (by omega) (by omega)
      simp only [log2Fuel, if_neg hn]
      rw [pow_succ, pow_succ]
      omega

theorem floorLog2_bounds (n : Nat) (h : 0 < n) :
    2 ^ floorLog2 n ≤ n ∧ n < 2 ^ (floorLog2 n + 1) :=
  log2Fuel_bounds n n (le_refl n) h

theorem fracLog2_le (p q : Nat) (hp : 0 < p) (hq : 0 < q) (he : 0 ≤ fracLog2 p q) :
    q * 2 ^ (fracLog2 p q).toNat ≤ p := by
  have ha := floorLog2_bounds p hp
  have hb := floorLog2_bounds q hq
  unfold fracLog2 at he ⊢
  simp only at he ⊢
  generalize floorLog2 p = a at ha he ⊢
  generalize floorLog2 q = b at hb he ⊢
  by_cases h0 : 0 ≤ (a : Int) - (b : Int)
  · simp only [if_pos h0] at he ⊢
    by_cases h2 : q * 2 ^ ((a : Int) - (b : Int)).toNat ≤ p
    · simp only [if_pos h2]
      exact h2
    · simp only [if_neg h2] at he ⊢
      have hto : ((a : Int) - (b : Int) - 1).toNat = a - b - 1 := by omega
      rw [hto]
      have h3 : q * 2 ^ (a - b - 1) < 2 ^ (b + 1) * 2 ^ (a - b - 1) :=
        Nat.mul_lt_mul_of_pos_right hb.2 (by positivity)
      rw [← pow_add] at h3
      have h4 : b + 1 + (a - b - 1) = a := by omega
      rw [h4] at h3
      omega
  · simp only [if_neg h0] at he ⊢
    by_cases h2 : q ≤ p * 2 ^ (-((a : Int) - (b : Int))).toNat
    · simp only [if_pos h2] at he
      exact absurd he h0
    · simp only [if_neg h2] at he
      omega

theorem divRoundEven_ge (n d : Nat) : n / d ≤ divRoundEven n d := by
  unfold divRoundEven
  simp only
  split_ifs <;> omega

theorem divRoundEven_le (n d : Nat) : divRoundEven n d ≤ n / d + 1 := by
  unfold divRoundEven
  simp only
  split_ifs <;> omega

theorem wrapInt64_of_fits (x : Int) (h0 : -2 ^ 63 ≤ x) (h1 : x < 2 ^ 63) : wrapInt64 x = x := by
  unfold wrapInt64
  omega

namespace Double

theorem toInt64_of_fits (d : Double) (h0 : -2 ^ 63 ≤ truncate d) (h1 : truncate d < 2 ^ 63) :
    toInt64 d = truncate d := by
  unfold toInt64
  simp only
  rw [if_pos ⟨h0, h1⟩]

theorem truncate_roundFrac_nonneg (p q : Nat) : 0 ≤ truncate (roundFrac false p q) := by
  unfold roundFrac truncate
  by_cases hp : p = 0
  · simp [hp]
  · simp only [if_neg hp, Bool.false_eq_true, if_false]
    rw [if_neg (by omega)]
    exact Int.natCast_nonneg _

theorem truncate_neg_mant_nonpos (m : Nat) (s : Int) : truncate ⟨-(m : Int), s⟩ ≤ 0 := by
  unfold truncate
  simp only
  by_cases hm : m = 0
  · subst hm
    simp
  · rw [if_pos (by omega)]
    have := Int.natCast_nonneg
      (if 0 ≤ s then (-(m : Int)).natAbs * 2 ^ s.toNat else (-(m : Int)).natAbs / 2 ^ (-s).toNat)
    omega

theorem truncate_roundFrac_nonpos (p q : Nat) : truncate (roundFrac true p q) ≤ 0 := by
  unfold roundFrac
  by_cases hp : p = 0
  · simp [hp, truncate]
  · simp only [if_neg hp, if_true]
    exact truncate_neg_mant_nonpos _ _

theorem truncate_roundFrac_ge (p q k : Nat) (hq : 0 < q) (hk1 : 1 ≤ k) (hk : k < 2 ^ 53)
    (h : k * q ≤ p) : (k : Int) ≤ truncate (roundFrac false p q) := by
  have hp : 0 < p := lt_of_lt_of_le (Nat.mul_pos hk1 hq) h
  have hp0 : p ≠ 0 := by omega
  have hfl := fracLog2_le p q hp hq
  unfold roundFrac truncate
  simp only [if_neg hp0, Bool.false_eq_true, if_false]
  generalize fracLog2 p q = e at hfl ⊢
  rw [if_neg (by omega)]
  by_cases hs : 0 ≤ max e (-1022) - 52
  · simp only [if_pos hs, Int.natAbs_ofNat]
    have he : max e (-1022) = e := by omega
    rw [he] at hs ⊢
    have hle := hfl (by omega)
    generalize hm : divRoundEven p (q * 2 ^ (e - 52).toNat) = m
    have hm' := divRoundEven_ge p (q * 2 ^ (e - 52).toNat)
    rw [hm] at hm'
    have hsplit : e.toNat = (e - 52).toNat + 52 := by omega
    rw [hsplit, pow_add] at hle
    generalize (e - 52).toNat = s at hle hm' ⊢
    have hpos : 0 < q * 2 ^ s := Nat.mul_pos hq (by positivity)
    have h52 : 2 ^ 52 ≤ p / (q * 2 ^ s) := by
      rw [Nat.le_div_iff_mul_le hpos]
      calc 2 ^ 52 * (q * 2 ^ s) = q * (2 ^ s * 2 ^ 52) := by ring
        _ ≤ p := hle
    norm_cast
    cases s with
    | zero =>
      simp only [pow_zero, mul_one] at hm' ⊢
      have : k ≤ p / q := by
        rw [Nat.le_div_iff_mul_le hq]
        exact h
      omega
    | succ s =>
      have h2 : 2 ≤ 2 ^ (s + 1) := by
        rw [pow_succ]
        have : 0 < 2 ^ s := by positivity
        omega
      calc k ≤ 2 ^ 52 * 2 := by omega
        _ ≤ m * 2 ^ (s + 1) := Nat.mul_le_mul (le_trans h52 hm') h2
  · simp only [if_neg hs, Int.natAbs_ofNat]
    generalize (-(max e (-1022) - 52)).toNat = t
    have hm' := divRoundEven_ge (p * 2 ^ t) q
    generalize divRoundEven (p * 2 ^ t) q = m at hm' ⊢
    norm_cast
    have hpos : 0 < 2 ^ t := by positivity
    rw [Nat.le_div_iff_mul_le hpos]
    refine le_trans ?_ hm'
    rw [Nat.le_div_iff_mul_le hq]
    calc k * 2 ^ t * q = k * q * 2 ^ t := by ring
      _ ≤ p * 2 ^ t := Nat.mul_le_mul_right _ h

theorem truncate_roundFrac_lt (p q b : Nat) (hq : 0 < q) (h : p < q * 2 ^ 62)
    (hb : 2 ^ 62 + 2 ^ 9 ≤ b) : truncate (roundFrac false p q) < (b : Int) := by
  have hb0 : 0 < b := lt_of_lt_of_le (by norm_num) hb
  by_cases hp0 : p = 0
  · simp [roundFrac, truncate, hp0, hb0]
  have hp : 0 < p := by omega
  have hfl := fracLog2_le p q hp hq
  unfold roundFrac truncate
  simp only [if_neg hp0, Bool.false_eq_true, if_false]
  generalize fracLog2 p q = e at hfl ⊢
  rw [if_neg (by omega)]
  by_cases hs : 0 ≤ max e (-1022) - 52
  · simp only [if_pos hs, Int.natAbs_ofNat]
    have he : max e (-1022) = e := by omega
    rw [he] at hs ⊢
    have hle := hfl (by omega)
    have hm' := divRoundEven_le p (q * 2 ^ (e - 52).toNat)
    generalize divRoundEven p (q * 2 ^ (e - 52).toNat) = m at hm' ⊢
    have hsplit : e.toNat = (e - 52).toNat + 52 := by omega
    rw [hsplit] at hle
    generalize (e - 52).toNat = s at hle hm' ⊢
    have hs9 : s + 52 < 62 := by
      have h1 : q * 2 ^ (s + 52) < q * 2 ^ 62 := lt_of_le_of_lt hle h
      have h2 : 2 ^ (s + 52) < 2 ^ 62 := Nat.lt_of_mul_lt_mul_left h1
      exact (Nat.pow_lt_pow_iff_right (by norm_num)).mp h2
    have hdiv : p / (q * 2 ^ s) * 2 ^ s < 2 ^ 62 := by
      have h1 : p / (q * 2 ^ s) * (q * 2 ^ s) ≤ p := Nat.div_mul_le_self p _
      have h2 : q * (p / (q * 2 ^ s) * 2 ^ s) < q * 2 ^ 62 := by
        calc q * (p / (q * 2 ^ s) * 2 ^ s) = p / (q * 2 ^ s) * (q * 2 ^ s) := by ring
          _ ≤ p := h1
          _ < q * 2 ^ 62 := h
      exact Nat.lt_of_mul_lt_mul_left h2
    have h2s : 2 ^ s ≤ 2 ^ 9 := Nat.pow_le_pow_right (by norm_num) (by omega)
    apply Int.ofNat_lt.mpr
    generalize p / (q * 2 ^ s) = f at hm' hdiv
    generalize 2 ^ s = S at hdiv h2s ⊢
    have h5 : m * S ≤ (f + 1) * S := Nat.mul_le_mul_right _ hm'
    have h6 : (f + 1) * S = f * S + S := by ring
    generalize f * S = fS at hdiv h6
    omega
  · simp only [if_neg hs, Int.natAbs_ofNat]
    generalize (-(max e (-1022) - 52)).toNat = t
    have hm' := divRoundEven_le (p * 2 ^ t) q
    generalize divRoundEven (p * 2 ^ t) q = m at hm' ⊢
    apply Int.ofNat_lt.mpr
    have hpos : 0 < 2 ^ t := by positivity
    have h1 : p * 2 ^ t / q < 2 ^ 62 * 2 ^ t := by
      rw [Nat.div_lt_iff_lt_mul hq]
      calc p * 2 ^ t < q * 2 ^ 62 * 2 ^ t := Nat.mul_lt_mul_of_pos_right h hpos
        _ = 2 ^ 62 * 2 ^ t * q := by ring
    generalize p * 2 ^ t / q = f at hm' h1
    generalize 2 ^ t = T at hpos h1 ⊢
    have h2 : m ≤ T * 2 ^ 62 := by
      rw [Nat.mul_comm]
      omega
    have h3 : m / T ≤ 2 ^ 62 := Nat.div_le_of_le_mul h2
    omega

end Double

set_option maxRecDepth 4000 in
theorem ofInt_kMicroSecondsPerSecond :
    (Double.ofInt Timestamp.kMicroSecondsPerSecond).mant = 8589934592000000 ∧
    (Double.ofInt Timestamp.kMicroSecondsPerSecond).expo = -33 := by
  decide

theorem two_zpow_split (z : Int) : (2 : ℚ) ^ z = 2 ^ z.toNat / 2 ^ (-z).toNat := by
  rcases le_or_lt 0 z with h | h
  · obtain ⟨n, rfl⟩ := Int.eq_ofNat_of_zero_le h
    have h1 : (-(n : Int)).toNat = 0 := by omega
    rw [h1]
    simp
  · obtain ⟨n, hn⟩ := Int.eq_ofNat_of_zero_le (show 0 ≤ -z by omega)
    have h1 : z = -(n : Int) := by omega
    subst h1
    have h2 : (-(n : Int)).toNat = 0 := by omega
    have h3 : (- -(n : Int)).toNat = n := by omega
    rw [h2, h3, zpow_neg]
    simp

theorem mant_pos_of_toRat_pos (d : Double) (h : 0 < d.toRat) : 0 < d.mant := by
  unfold Double.toRat at h
  have h2 : (0 : ℚ) < 2 ^ d.expo := by positivity
  have h3 : (0 : ℚ) < (d.mant : ℚ) := by
    by_contra hc
    have : (d.mant : ℚ) * 2 ^ d.expo ≤ 0 := mul_nonpos_of_nonpos_of_nonneg (not_lt.mp hc) h2.le
    linarith
  exact_mod_cast h3

/-- The product `seconds * kMicroSecondsPerSecond` of `addTime`, for a positive
`seconds`, is the rounded fraction of these two natural numbers. -/
theorem mul_kMicroSecondsPerSecond (interval : Double) (h : 0 ≤ interval.mant) :
    Double.mul interval (Double.ofInt Timestamp.kMicroSecondsPerSecond) =
      Double.roundFrac false
        (interval.mant.natAbs * 8589934592000000 * 2 ^ (interval.expo + -33).toNat)
        (2 ^ (-(interval.expo + -33)).toNat) := by
  obtain ⟨hm, he⟩ := ofInt_kMicroSecondsPerSecond
  unfold Double.mul
  simp only [hm, he]
  have hn1 : decide (interval.mant < 0) = false := by
    simp only [decide_eq_false_iff_not]
    omega
  have hn2 : decide ((8589934592000000 : Int) < 0) = false := by decide
  have h3 : (8589934592000000 : Int).natAbs = 8589934592000000 := by decide
  rw [hn1, hn2, h3]
  rfl

/-- The exact product of a non-negative interval with 1000000, as a fraction of the
two natural numbers `Double.mul` rounds. -/
theorem toRat_mul_million (interval : Double) (h : 0 ≤ interval.mant) :
    interval.toRat * 1000000 =
      ((interval.mant.natAbs * 8589934592000000 * 2 ^ (interval.expo + -33).toNat : Nat) : ℚ) /
        ((2 ^ (-(interval.expo + -33)).toNat : Nat) : ℚ) := by
  obtain ⟨n, hn⟩ := Int.eq_ofNat_of_zero_le h
  unfold Double.toRat
  have hsplit : (2 : ℚ) ^ interval.expo = 2 ^ (33 : Int) * 2 ^ (interval.expo + -33) := by
    rw [← zpow_add₀ (by norm_num)]
    congr 1
    ring
  rw [hsplit, two_zpow_split (interval.expo + -33), hn]
  simp only [Int.natAbs_ofNat]
  generalize (interval.expo + -33).toNat = a
  generalize (-(interval.expo + -33)).toNat = b
  push_cast
  norm_num
  ring

theorem addTime_delta_ge (interval : Double) (k : Nat) (hk1 : 1 ≤ k) (hk : k < 2 ^ 53)
    (h : (k : ℚ) ≤ interval.toRat * 1000000) :
    (k : Int) ≤
      (Double.mul interval (Double.ofInt Timestamp.kMicroSecondsPerSecond)).truncate := by
  have hk0 : (0 : ℚ) < (k : ℚ) := by exact_mod_cast hk1
  have hpos : 0 < interval.mant := by
    apply mant_pos_of_toRat_pos
    by_contra hc
    have : interval.toRat * 1000000 ≤ 0 :=
      mul_nonpos_of_nonpos_of_nonneg (not_lt.mp hc) (by norm_num)
    linarith
  rw [mul_kMicroSecondsPerSecond interval hpos.le]
  rw [toRat_mul_million interval hpos.le] at h
  apply Double.truncate_roundFrac_ge _ _ k (by positivity) hk1 hk
  generalize interval.mant.natAbs * 8589934592000000 * 2 ^ (interval.expo + -33).toNat = p at h ⊢
  have hq : 0 < 2 ^ (-(interval.expo + -33)).toNat := by positivity
  generalize 2 ^ (-(interval.expo + -33)).toNat = q at h hq ⊢
  have hq' : (0 : ℚ) < (q : ℚ) := by exact_mod_cast hq
  rw [le_div_iff₀ hq'] at h
  exact_mod_cast h

theorem addTime_delta_nonneg (interval : Double) (h : 0 ≤ interval.mant) :
    0 ≤ (Double.mul interval (Double.ofInt Timestamp.kMicroSecondsPerSecond)).truncate := by
  rw [mul_kMicroSecondsPerSecond interval h]
  exact Double.truncate_roundFrac_nonneg _ _

theorem addTime_delta_lt (interval : Double) (h : interval.toRat * 1000000 < 2 ^ 62) :
    (Double.mul interval (Double.ofInt Timestamp.kMicroSecondsPerSecond)).truncate < 2 ^ 63 := by
  by_cases hm : 0 ≤ interval.mant
  · rw [mul_kMicroSecondsPerSecond interval hm]
    rw [toRat_mul_million interval hm] at h
    have hb := Double.truncate_roundFrac_lt
      (interval.mant.natAbs * 8589934592000000 * 2 ^ (interval.expo + -33).toNat)
      (2 ^ (-(interval.expo + -33)).toNat) (2 ^ 63) (by positivity) ?_ (by norm_num)
    · exact_mod_cast hb
    · generalize interval.mant.natAbs * 8589934592000000 * 2 ^ (interval.expo + -33).toNat = p
        at h ⊢
      have hq : 0 < 2 ^ (-(interval.expo + -33)).toNat := by positivity
      generalize 2 ^ (-(interval.expo + -33)).toNat = q at h hq ⊢
      have hq' : (0 : ℚ) < (q : ℚ) := by exact_mod_cast hq
      rw [div_lt_iff₀ hq'] at h
      have h2 : (p : ℚ) < ((q * 2 ^ 62 : Nat) : ℚ) := by
        push_cast
        linarith
      exact_mod_cast h2
  · obtain ⟨hm1, he⟩ := ofInt_kMicroSecondsPerSecond
    unfold Double.mul
    simp only [hm1, he]
    have hn1 : decide (interval.mant < 0) = true := by
      simp only [decide_eq_true_eq]
      omega
    have hn2 : decide ((8589934592000000 : Int) < 0) = false := by decide
    rw [hn1, hn2]
    have := Double.truncate_roundFrac_nonpos
      (interval.mant.natAbs * (8589934592000000 : Int).natAbs * 2 ^ (interval.expo + -33).toNat)
      (2 ^ (-(interval.expo + -33)).toNat)
    have h63 : (0 : Int) < 2 ^ 63 := by norm_num
    exact lt_of_le_of_lt this h63

/-! ## Restarting a repeating timer -/

set_option maxRecDepth 4000 in
/-- C22, refuted as stated, at three inputs. For the interval 9007199254.765625 s (the
double `576460752305 * 2 ^ -6`) the exact product with 1000000 is the odd number
9007199254765625 above `2 ^ 53`, which `seconds * kMicroSecondsPerSecond` rounds to
9007199254765624, so `addTime` from 0 lies one microsecond below now plus the interval
truncated to whole microseconds. For the interval 10000000000000 s (the double
`1220703125 * 2 ^ 13`) the product `10 ^ 19` is outside `int64_t`, the conversion
gives `INT64_MIN`, and `addTime` from 1700000000000000 µs is -9221672036854775808 µs,
below now. For now = `INT64_MAX` µs and the interval 1 s the sum leaves `int64_t` and
the result is below now. -/
theorem addTime_not_forward_counterexample :
    ((1 : ℚ) ≤ Double.toRat ⟨576460752305, -6⟩ * 1000000 ∧
      ⌊Double.toRat ⟨576460752305, -6⟩ * 1000000⌋ = 9007199254765625 ∧
      (addTime (Timestamp.ofMicroSeconds 0) ⟨576460752305, -6⟩).microSecondsSinceEpoch =
        9007199254765624 ∧
      ¬ ((Timestamp.ofMicroSeconds 0).microSecondsSinceEpoch +
          ⌊Double.toRat ⟨576460752305, -6⟩ * 1000000⌋ ≤
        (addTime (Timestamp.ofMicroSeconds 0) ⟨576460752305, -6⟩).microSecondsSinceEpoch)) ∧
    ((1 : ℚ) ≤ Double.toRat ⟨1220703125, 13⟩ * 1000000 ∧
      (Double.mul ⟨1220703125, 13⟩
        (Double.ofInt Timestamp.kMicroSecondsPerSecond)).truncate = 10 ^ 19 ∧
      (addTime (Timestamp.ofMicroSeconds 1700000000000000)
        ⟨1220703125, 13⟩).microSecondsSinceEpoch = -9221672036854775808 ∧
      ¬ ((Timestamp.ofMicroSeconds 1700000000000000).microSecondsSinceEpoch <
        (addTime (Timestamp.ofMicroSeconds 1700000000000000)
          ⟨1220703125, 13⟩).microSecondsSinceEpoch) ∧
      ¬ ((Timestamp.ofMicroSeconds 1700000000000000).microSecondsSinceEpoch ≤
        (addTime (Timestamp.ofMicroSeconds 1700000000000000)
          ⟨1220703125, 13⟩).microSecondsSinceEpoch)) ∧
    ((1 : ℚ) ≤ Double.toRat ⟨1, 0⟩ * 1000000 ∧
      (addTime (Timestamp.ofMicroSeconds 9223372036854775807)
        ⟨1, 0⟩).microSecondsSinceEpoch = -9223372036853775809 ∧
      ¬ ((Timestamp.ofMicroSeconds 9223372036854775807).microSecondsSinceEpoch <
        (addTime (Timestamp.ofMicroSeconds 9223372036854775807)
          ⟨1, 0⟩).microSecondsSinceEpoch)) := by
  have hx : Double.toRat ⟨576460752305, -6⟩ * 1000000 = ((9007199254765625 : Int) : ℚ) := by
    norm_num [Double.toRat]
  have hf : ⌊Double.toRat ⟨576460752305, -6⟩ * 1000000⌋ = 9007199254765625 := by
    rw [hx, Int.floor_intCast]
  have ha : (addTime (Timestamp.ofMicroSeconds 0) ⟨576460752305, -6⟩).microSecondsSinceEpoch =
      9007199254765624 := by
    decide
  have hb : (addTime (Timestamp.ofMicroSeconds 1700000000000000)
      ⟨1220703125, 13⟩).microSecondsSinceEpoch = -9221672036854775808 := by
    decide
  have hc : (addTime (Timestamp.ofMicroSeconds 9223372036854775807)
      ⟨1, 0⟩).microSecondsSinceEpoch = -9223372036853775809 := by
    decide
  refine ⟨⟨?_, hf, ha, ?_⟩, ⟨?_, ?_, hb, ?_, ?_⟩, ⟨?_, hc, ?_⟩⟩
  · rw [hx]
    norm_num
  · rw [hf, ha]
    decide
  · norm_num [Double.toRat]
  · decide
  · rw [hb]
    decide
  · rw [hb]
    decide
  · norm_num [Double.toRat]
  · rw [hc]
    decide

set_option maxRecDepth 4000 in
/-- C22, amended: restarting a repeating timer moves its expiration forward while
`int64_t` is not left. Let `now` be a Timestamp (an `int64_t` count) and let the
integer part of the double product `interval * 1000000` be below `2 ^ 63` (every
interval shorter than `2 ^ 62` microseconds is such) and, added to `now`, stay below
`2 ^ 63`. Then for an interval of at least one microsecond `addTime(now, interval)` is
strictly greater than `now` and than every earlier expiration that was `≤ now`; it is
at least `now` plus the interval truncated to whole microseconds when that number of
microseconds is below `2 ^ 53`; and for a non-negative interval it is `≥ now`. For the
double `1.0 / 1000000` it is `now` plus one microsecond. -/
theorem addTime_moves_forward (now : Timestamp) (interval : Double)
    (hnow : -2 ^ 63 ≤ now.microSecondsSinceEpoch) :
    (interval.toRat * 1000000 < 2 ^ 62 →
      (Double.mul interval (Double.ofInt Timestamp.kMicroSecondsPerSecond)).truncate < 2 ^ 63) ∧
    ((Double.mul interval (Double.ofInt Timestamp.kMicroSecondsPerSecond)).truncate < 2 ^ 63 →
      now.microSecondsSinceEpoch +
        (Double.mul interval (Double.ofInt Timestamp.kMicroSecondsPerSecond)).truncate < 2 ^ 63 →
      (1 ≤ interval.toRat * 1000000 →
        now.microSecondsSinceEpoch < (addTime now interval).microSecondsSinceEpoch ∧
        ∀ earlier : Timestamp, earlier.microSecondsSinceEpoch ≤ now.microSecondsSinceEpoch →
          earlier.microSecondsSinceEpoch < (addTime now interval).microSecondsSinceEpoch) ∧
      (1 ≤ interval.toRat * 1000000 → ⌊interval.toRat * 1000000⌋ < 2 ^ 53 →
        now.microSecondsSinceEpoch + ⌊interval.toRat * 1000000⌋ ≤
          (addTime now interval).microSecondsSinceEpoch) ∧
      (0 ≤ interval.toRat →
        now.microSecondsSinceEpoch ≤ (addTime now interval).microSecondsSinceEpoch)) ∧
    (now.microSecondsSinceEpoch + 1 < 2 ^ 63 →
      (addTime now (Double.div (Double.ofInt 1) (Double.ofInt 1000000))).microSecondsSinceEpoch =
        now.microSecondsSinceEpoch + 1) := by
  have hmant : 0 ≤ interval.toRat → 0 ≤ interval.mant := by
    intro h
    by_contra hc
    have h2 : (0 : ℚ) < 2 ^ interval.expo := by positivity
    have h3 : (interval.mant : ℚ) < 0 := by exact_mod_cast (not_le.mp hc)
    have : interval.toRat < 0 := mul_neg_of_neg_of_pos h3 h2
    linarith
  refine ⟨addTime_delta_lt interval, ?_, ?_⟩
  · intro hcast hsum
    generalize hT :
      (Double.mul interval (Double.ofInt Timestamp.kMicroSecondsPerSecond)).truncate = T
      at hcast hsum
    have hadd : 0 ≤ T → (addTime now interval).microSecondsSinceEpoch =
        now.microSecondsSinceEpoch + T := by
      intro h0
      have h1 : Double.toInt64
          (Double.mul interval (Double.ofInt Timestamp.kMicroSecondsPerSecond)) = T := by
        rw [Double.toInt64_of_fits _ (by rw [hT]; omega) (by rw [hT]; exact hcast), hT]
      show wrapInt64 (now.microSecondsSinceEpoch + Double.toInt64
        (Double.mul interval (Double.ofInt Timestamp.kMicroSecondsPerSecond))) = _
      rw [h1, wrapInt64_of_fits _ (by omega) hsum]
    have hone : 1 ≤ interval.toRat * 1000000 → 1 ≤ T := by
      intro h
      rw [← hT]
      exact addTime_delta_ge interval 1 (le_refl 1) (by norm_num) (by exact_mod_cast h)
    refine ⟨?_, ?_, ?_⟩
    · intro h
      have h1 := hone h
      rw [hadd (by omega)]
      constructor
      · omega
      · intro earlier he
        omega
    · intro h hlt
      have h1 := hone h
      have hfloor : 1 ≤ ⌊interval.toRat * 1000000⌋ := Int.le_floor.mpr (by exact_mod_cast h)
      obtain ⟨k, hk⟩ := Int.eq_ofNat_of_zero_le (show 0 ≤ ⌊interval.toRat * 1000000⌋ by omega)
      have hle : ((⌊interval.toRat * 1000000⌋ : Int) : ℚ) ≤ interval.toRat * 1000000 :=
        Int.floor_le _
      rw [hk] at hle hlt hfloor ⊢
      have h2 := addTime_delta_ge interval k (by exact_mod_cast hfloor) (by exact_mod_cast hlt)
        (by exact_mod_cast hle)
      rw [hT] at h2
      rw [hadd (by omega)]
      omega
    · intro h
      have h1 := addTime_delta_nonneg interval (hmant h)
      rw [hT] at h1
      rw [hadd h1]
      omega
  · intro h1
    have h2 : Double.toInt64 (Double.mul (Double.div (Double.ofInt 1) (Double.ofInt 1000000))
        (Double.ofInt Timestamp.kMicroSecondsPerSecond)) = 1 := by
      decide
    show wrapInt64 (now.microSecondsSinceEpoch + Double.toInt64
      (Double.mul (Double.div (Double.ofInt 1) (Double.ofInt 1000000))
        (Double.ofInt Timestamp.kMicroSecondsPerSecond))) = _
    rw [h2, wrapInt64_of_fits _ (by omega) h1]

set_option maxRecDepth 4000 in
/-- C22 at a sample: restarting a timer of interval 2.5 s at 1700000000 s. -/
theorem addTime_moves_forward_witness :
    (-2 ^ 63 : Int) ≤ (Timestamp.ofMicroSeconds 1700000000000000).microSecondsSinceEpoch ∧
    (1 : ℚ) ≤ Double.toRat ⟨5, -1⟩ * 1000000 ∧
    (Double.mul ⟨5, -1⟩ (Double.ofInt Timestamp.kMicroSecondsPerSecond)).truncate = 2500000 ∧
    (Timestamp.ofMicroSeconds 1700000000000000).microSecondsSinceEpoch <
      (addTime (Timestamp.ofMicroSeconds 1700000000000000) ⟨5, -1⟩).microSecondsSinceEpoch ∧
    (addTime (Timestamp.ofMicroSeconds 1700000000000000) ⟨5, -1⟩).microSecondsSinceEpoch =
      1700000002500000 :=
  ⟨by decide, by norm_num [Double.toRat], by decide,
    (((addTime_moves_forward (Timestamp.ofMicroSeconds 1700000000000000) ⟨5, -1⟩
      (by decide)).2.1 (by decide) (by decide)).1 (by norm_num [Double.toRat])).1,
    by decide⟩

/-! ## Unix time and its text -/

namespace Timestamp

/-- C29: Unix-time round trip. For seconds `t ≥ 0` and a microsecond part
`0 ≤ u < 1000000` with `t * 1000000 + u` inside `int64_t`, `fromUnixTime(t, u)` holds
`t * 1000000 + u` microseconds, its `secondsSinceEpoch()` is `t`, and `toString()` is
the decimal `t`, a `.`, and `u` in decimal preceded by zeros up to exactly six
characters (nothing is cut off by the 32-character buffer). -/
theorem fromUnixTime_round_trip (t u : Int) (ht : 0 ≤ t) (hu0 : 0 ≤ u) (hu : u < 1000000)
    (hfit : t * 1000000 + u < 2 ^ 63) :
    (fromUnixTime t u).microSecondsSinceEpoch = t * 1000000 + u ∧
    (fromUnixTime t u).secondsSinceEpoch = t ∧
    (fromUnixTime t u).toString = printfD t ++ "." ++ padLeft '0' 6 (Nat.repr u.toNat) ∧
    (padLeft '0' 6 (Nat.repr u.toNat)).length = 6 ∧
    (padLeft '0' 6 (Nat.repr u.toNat)).data =
      List.replicate (6 - (Nat.repr u.toNat).length) '0' ++ (Nat.repr u.toNat).data := by
  have hk : kMicroSecondsPerSecond = 1000000 := rfl
  have hm : (fromUnixTime t u).microSecondsSinceEpoch_ = t * 1000000 + u := by
    simp only [fromUnixTime, ofMicroSeconds, hk]
    rw [wrapInt64_of_fits (t * 1000000) (by omega) (by omega),
      wrapInt64_of_fits (t * 1000000 + u) (by omega) (by omega)]
  have hdiv : Int.tdiv (t * 1000000 + u) 1000000 = t := by
    rw [Int.tdiv_eq_ediv (by omega) (by decide)]
    omega
  have hmod : Int.tmod (t * 1000000 + u) 1000000 = u := by
    rw [Int.tmod_eq_emod (by omega) (by decide)]
    omega
  have hulen : (Nat.repr u.toNat).length ≤ 6 :=
    Nat.repr_length u.toNat 6 (by decide) (by omega)
  have hpad : (padLeft '0' 6 (Nat.repr u.toNat)).length = 6 := by
    rw [padLeft_length]
    omega
  have htlen : (printfD t).length ≤ 13 :=
    printfD_length_of_pos t 13 (by decide) ht (by omega)
  refine ⟨hm, ?_, ?_, hpad, rfl⟩
  · simp only [secondsSinceEpoch, hm, hk, hdiv]
  · have hnat : u.natAbs = u.toNat := by omega
    have h06 : printfD06 u = padLeft '0' 6 (Nat.repr u.toNat) := by
      simp only [printfD06, if_neg (not_lt.mpr hu0), hnat]
      rfl
    simp only [Timestamp.toString, hm, hk, hdiv, hmod, h06]
    apply snprintfBuf_of_short
    rw [String.length_append, String.length_append, hpad]
    have : (".").length = 1 := rfl
    omega

/-- C29 at a sample: 1700000000 seconds and 42 microseconds. -/
theorem fromUnixTime_round_trip_witness :
    (0 : Int) ≤ 1700000000 ∧ (0 : Int) ≤ 42 ∧ (42 : Int) < 1000000 ∧
    (fromUnixTime 1700000000 42).microSecondsSinceEpoch = 1700000000000042 ∧
    (fromUnixTime 1700000000 42).secondsSinceEpoch = 1700000000 ∧
    (fromUnixTime 1700000000 42).toString = "1700000000.000042" :=
  ⟨by decide, by decide, by decide,
    (fromUnixTime_round_trip 1700000000 42 (by decide) (by decide) (by decide)
      (by decide)).1,
    (fromUnixTime_round_trip 1700000000 42 (by decide) (by decide) (by decide)
      (by decide)).2.1,
    by decide⟩

end Timestamp

namespace net

/-! ## InetAddress -/

theorem sockets.networkToHost16_hostToNetwork16 (littleEndian : Bool) (p : Nat)
    (hp : p < 65536) :
    sockets.networkToHost16 littleEndian (sockets.hostToNetwork16 littleEndian p) = p := by
  cases littleEndian
  · simp only [sockets.networkToHost16, sockets.hostToNetwork16]
    simp only [Bool.false_eq_true, if_false]
    omega
  · simp only [sockets.networkToHost16, sockets.hostToNetwork16, if_true]
    have h1 : p / 256 < 256 := by omega
    have h2 : p % 256 < 256 := Nat.mod_lt _ (by decide)
    have h3 := Nat.div_add_mod p 256
    rw [Nat.mod_eq_of_lt h1]
    generalize p / 256 = hi at h1 h3 ⊢
    generalize p % 256 = lo at h2 h3 ⊢
    have hx : (lo * 256 + hi) / 256 = lo := by omega
    have hy : (lo * 256 + hi) % 256 = hi := by omega
    rw [hx, hy, Nat.mod_eq_of_lt h2]
    omega

namespace InetAddress

/-- C30: port round trip through network byte order. For a port `p < 65536`, either
byte order of the host, and both values of `loopbackOnly` and `ipv6`, the constructed
address has `port() = p` and `portNetEndian()` equal to `hostToNetwork16(p)`; its
family is `AF_INET6` exactly when `ipv6` is true and `AF_INET` otherwise; `setScopeId`
leaves an address whose family is not `AF_INET6` unchanged and, for family `AF_INET6`,
changes `sin6_scope_id` only. -/
theorem port_round_trip (raw a : InetAddress) (littleEndian : Bool) (p : Nat)
    (loopbackOnly ipv6 : Bool) (scope_id : Nat) (hp : p < 65536) :
    (new raw littleEndian p loopbackOnly ipv6).port littleEndian = p ∧
    (new raw littleEndian p loopbackOnly ipv6).portNetEndian =
      sockets.hostToNetwork16 littleEndian p ∧
    ((new raw littleEndian p loopbackOnly ipv6).family = AF_INET6 ↔ ipv6 = true) ∧
    (ipv6 = false → (new raw littleEndian p loopbackOnly ipv6).family = AF_INET) ∧
    (a.family ≠ AF_INET6 → a.setScopeId scope_id = a) ∧
    (a.family = AF_INET6 →
      a.setScopeId scope_id = { a with sin6_scope_id := scope_id % 4294967296 }) ∧
    (ipv6 = false → (new raw littleEndian p loopbackOnly ipv6).setScopeId scope_id =
      new raw littleEndian p loopbackOnly ipv6) ∧
    (ipv6 = true → ((new raw littleEndian p loopbackOnly ipv6).setScopeId scope_id).sin6_scope_id
      = scope_id % 4294967296) := by
  have hport : (new raw littleEndian p loopbackOnly ipv6).portNetEndian =
      sockets.hostToNetwork16 littleEndian p := by
    cases ipv6 <;> rfl
  refine ⟨?_, hport, ?_, ?_, ?_, ?_, ?_, ?_⟩
  · rw [port, hport]
    exact sockets.networkToHost16_hostToNetwork16 littleEndian p hp
  · cases ipv6 <;> simp [new, family, AF_INET, AF_INET6]
  · intro h
    subst h
    rfl
  · intro h
    simp [setScopeId, h]
  · intro h
    simp [setScopeId, h]
  · intro h
    subst h
    rfl
  · intro h
    subst h
    rfl

/-- C30 at a sample: port 8080 on a little-endian host, IPv4 any-address. -/
theorem port_round_trip_witness :
    8080 < 65536 ∧
    (new sampleRaw true 8080 false false).port true = 8080 ∧
    (new sampleRaw true 8080 false false).portNetEndian = 36895 ∧
    (new sampleRaw true 8080 false false).sin6_scope_id = 0xEEEEEEEE ∧
    ((new sampleRaw true 8080 true true).setScopeId 3).sin6_scope_id = 3 :=
  ⟨by decide,
    (port_round_trip sampleRaw (new sampleRaw true 8080 true true) true 8080 false false 3
      (by decide)).1,
    by decide, by decide, by decide⟩

end InetAddress

end net

end muduo
